import Mathlib

/-!
# Verification of the algorithmic trading decision engine

Shallow embedding of the indicator library, the SMC market-structure
analyzer, the tabular RL trading agent and the backtest engine of the
repository, together with theorems settling the frozen claims about them.

Numbers are modelled as exact rationals (`ℚ`); JavaScript's IEEE doubles
are approximated exactly at the rational level, and division by zero is
the Lean convention `x / 0 = 0` (commented wherever the source could hit
it).  JavaScript `Math.random()` draws are made explicit parameters so
that every theorem quantifies over all possible draws.
-/

namespace Trading

/-- One OHLCV bar, oldest-first in a series (`Candle` in `smc.ts`). -/
structure Candle where
  time : ℤ
  open_ : ℚ
  high : ℚ
  low : ℚ
  close : ℚ
  volume : ℚ
  deriving Repr, DecidableEq

/-- Placeholder candle used for (never taken) out-of-range list reads. -/
def cd0 : Candle := ⟨0, 0, 0, 0, 0, 0⟩

/-- The three trading actions (`Action` in `email.ts`). -/
inductive Action where
  | buy
  | sell
  | hold
  deriving Repr, DecidableEq

/-! ## Indicator library (backtest module, `src/unnamed/part_001`) -/

namespace Ind

/-- `calculateSMA(prices, period)`: mean of the trailing `period` prices;
if fewer than `period` prices are present it returns the last price
(`prices[prices.length - 1]`; on an empty array JS yields `undefined`,
modelled here by the default `0`, a case no claim touches). -/
def calculateSMA (prices : List ℚ) (period : ℕ) : ℚ :=
  if prices.length < period then prices.getLastD 0
  else ((prices.drop (prices.length - period)).sum) / (period : ℚ)

/-- `calculateEMA(prices, period)`: seeded with the SMA of the first
`period` prices, then folded over the rest with `k = 2/(period+1)`;
same short-input fallback as `calculateSMA`. -/
def calculateEMA (prices : List ℚ) (period : ℕ) : ℚ :=
  if prices.length < period then prices.getLastD 0
  else
    let k : ℚ := 2 / ((period : ℚ) + 1)
    (prices.drop period).foldl (fun e x => x * k + e * (1 - k))
      ((prices.take period).sum / (period : ℚ))

/-- One step of the RSI gains/losses accumulation: `change > 0` adds to
gains, otherwise `|change|` adds to losses. -/
def rsiStep (f : ℕ → ℚ) (s : ℚ × ℚ) (i : ℕ) : ℚ × ℚ :=
  let change := f i - f (i - 1)
  if 0 < change then (s.1 + change, s.2) else (s.1, s.2 + |change|)

/-- The RSI accumulation loop `for (i = len - period; i < len; i++)`,
shared between the price-list RSI of the backtest module and the
candle RSI of the RL module (identical source loops). -/
def rsiLoop (f : ℕ → ℚ) (start n : ℕ) : ℚ × ℚ :=
  (List.range' start n).foldl (rsiStep f) (0, 0)

/-- `calculateRSI(prices, period = 14)`: Wilder-style ratio over the most
recent `period` deltas; 50 on insufficient history; 100 when the average
loss is exactly zero. -/
def calculateRSI (prices : List ℚ) (period : ℕ := 14) : ℚ :=
  if prices.length < period + 1 then 50
  else
    let gl := rsiLoop (fun i => prices.getD i 0) (prices.length - period) period
    let avgGain := gl.1 / (period : ℚ)
    let avgLoss := gl.2 / (period : ℚ)
    if avgLoss = 0 then 100
    else 100 - 100 / (1 + avgGain / avgLoss)

/-- The running-EMA pass of `calculateMACD` that builds the MACD line:
state is (fast EMA, slow EMA, reversed MACD line) folded over the
enumerated closes. -/
def macdLinePass (fastPeriod slowPeriod : ℕ) (kFast kSlow : ℚ)
    (s : ℚ × ℚ × List ℚ) (p : ℕ × ℚ) : ℚ × ℚ × List ℚ :=
  let eFast := if fastPeriod ≤ p.1 then p.2 * kFast + s.1 * (1 - kFast) else s.1
  if slowPeriod ≤ p.1 then
    let eSlow := p.2 * kSlow + s.2.1 * (1 - kSlow)
    (eFast, eSlow, (eFast - eSlow) :: s.2.2)
  else (eFast, s.2.1, s.2.2)

/-- `calculateMACD(prices, fast=12, slow=26, signal=9)` of the backtest
module: EMA(fast) − EMA(slow) as the MACD line; the signal line is the
EMA of the incrementally built MACD series (0 when it is shorter than
the signal period); histogram = macd − signal. All-zero struct when
`prices.length < slowPeriod`. -/
def calculateMACD (prices : List ℚ) (fastPeriod : ℕ := 12)
    (slowPeriod : ℕ := 26) (signalPeriod : ℕ := 9) : ℚ × ℚ × ℚ :=
  if prices.length < slowPeriod then (0, 0, 0)
  else
    let emaFast := calculateEMA prices fastPeriod
    let emaSlow := calculateEMA prices slowPeriod
    let macd := emaFast - emaSlow
    let kFast : ℚ := 2 / ((fastPeriod : ℚ) + 1)
    let kSlow : ℚ := 2 / ((slowPeriod : ℚ) + 1)
    let init : ℚ × ℚ × List ℚ :=
      ((prices.take fastPeriod).sum / (fastPeriod : ℚ),
       (prices.take slowPeriod).sum / (slowPeriod : ℚ), [])
    let macdLine := (prices.enum.foldl (macdLinePass fastPeriod slowPeriod kFast kSlow) init).2.2.reverse
    let signal := if signalPeriod ≤ macdLine.length then calculateEMA macdLine signalPeriod else 0
    (macd, signal, macd - signal)

end Ind

/-! ## Indicator functions of the RL module (`src/server/email.ts`) -/

namespace RL

/-- `calculateRSI(candles, period = 14)` of the RL module: same loop as
the list version, over candle closes. -/
def calculateRSI (candles : List Candle) (period : ℕ := 14) : ℚ :=
  if candles.length < period + 1 then 50
  else
    let gl := Ind.rsiLoop (fun i => (candles.getD i cd0).close) (candles.length - period) period
    let avgGain := gl.1 / (period : ℚ)
    let avgLoss := gl.2 / (period : ℚ)
    if avgLoss = 0 then 100
    else 100 - 100 / (1 + avgGain / avgLoss)

/-- The inner `ema` helper of the RL module's `calculateMACD`: SMA seed
over the first `period` entries, then the usual smoothing fold (no
short-input fallback: callers guard the length). -/
def ema (data : List ℚ) (period : ℕ) : ℚ :=
  let k : ℚ := 2 / ((period : ℚ) + 1)
  (data.drop period).foldl (fun e x => x * k + e * (1 - k))
    ((data.take period).sum / (period : ℚ))

/-- `calculateMACD(candles)` of the RL module: fixed periods 12/26/9,
otherwise the same incremental construction as the backtest version. -/
def calculateMACD (candles : List Candle) : ℚ × ℚ × ℚ :=
  if candles.length < 26 then (0, 0, 0)
  else
    let closes := candles.map Candle.close
    let ema12 := ema closes 12
    let ema26 := ema closes 26
    let macd := ema12 - ema26
    let k12 : ℚ := 2 / 13
    let k26 : ℚ := 2 / 27
    let init : ℚ × ℚ × List ℚ :=
      ((closes.take 12).sum / 12, (closes.take 26).sum / 26, [])
    let macdLine := (closes.enum.foldl (Ind.macdLinePass 12 26 k12 k26) init).2.2.reverse
    let signal := if 9 ≤ macdLine.length then ema macdLine 9 else 0
    (macd, signal, macd - signal)

/-- `calculateVolatility(candles, period = 14)` returns
`Math.sqrt(variance) * 100`, an irrational value; this model carries the
*square* of that value (`variance * 10000`), which is exact in `ℚ`.
Every consumer of the volatility feature (the clamp `min(10, v)` and the
bucket thresholds `v > 5`, `v > 2`) is monotone, so the squared value with
squared bounds is an exact semantic-preserving reparametrization. -/
def calculateVolatilitySq (candles : List Candle) (period : ℕ := 14) : ℚ :=
  if candles.length < period then 0
  else
    let f : ℕ → ℚ := fun i => (candles.getD i cd0).close
    let returns := (List.range' (candles.length - period) period).map
      (fun i => (f i - f (i - 1)) / f (i - 1))
    let mean := returns.sum / (returns.length : ℚ)
    let variance := (returns.map (fun r => (r - mean) ^ 2)).sum / (returns.length : ℚ)
    variance * 10000

/-- `calculateTrendStrength(candles, period = 20)`: percentage deviation
of the last close from the trailing SMA. -/
def calculateTrendStrength (candles : List Candle) (period : ℕ := 20) : ℚ :=
  if candles.length < period then 0
  else
    let recent := candles.drop (candles.length - period)
    let sma := (recent.map Candle.close).sum / (period : ℚ)
    let currentPrice := (candles.getLastD cd0).close
    (currentPrice - sma) / sma * 100

/-- The feature vector (`State` in `email.ts`).  The `volatilitySq` field
carries the square of the source's `volatility` feature (see
`calculateVolatilitySq`). -/
structure State where
  priceChange : ℚ
  rsi : ℚ
  macdSignal : ℚ
  volumeChange : ℚ
  trendStrength : ℚ
  volatilitySq : ℚ
  deriving Repr, DecidableEq

/-- Per-state action values (one `QTable` entry). -/
structure QValues where
  buy : ℚ
  sell : ℚ
  hold : ℚ
  deriving Repr, DecidableEq

/-- Zero-initialized entry `{ buy: 0, sell: 0, hold: 0 }`. -/
def QValues.zero : QValues := ⟨0, 0, 0⟩

/-- Read the value of one action. -/
def QValues.get (q : QValues) : Action → ℚ
  | .buy => q.buy
  | .sell => q.sell
  | .hold => q.hold

/-- Write the value of one action. -/
def QValues.set (q : QValues) : Action → ℚ → QValues
  | .buy, v => { q with buy := v }
  | .sell, v => { q with sell := v }
  | .hold, v => { q with hold := v }

/-- The discretized state key.  The source builds the string
`priceLevel_rsiLevel_macdLevel_volumeLevel_trendLevel_volLevel`; the
components determine the string and vice versa, so the key is modelled
as the tuple of components. -/
abbrev SKey : Type := ℤ × ℤ × ℚ × ℤ × ℤ × ℤ

/-- The agent's Q-table: discretized state key to action values, entries
created lazily in insertion order (a JS object used as a map). -/
abbrev QTable : Type := List (SKey × QValues)

/-- An experience-replay entry. -/
structure Experience where
  state : State
  action : Action
  reward : ℚ
  nextState : State
  done : Bool
  deriving Repr, DecidableEq

/-- Placeholder experience for (never taken) out-of-range batch reads. -/
def exp0 : Experience := ⟨⟨0, 0, 0, 0, 0, 0⟩, .hold, 0, ⟨0, 0, 0, 0, 0, 0⟩, false⟩

/-- Agent hyperparameters (`AgentConfig`). -/
structure AgentConfig where
  learningRate : ℚ
  discountFactor : ℚ
  explorationRate : ℚ
  explorationDecay : ℚ
  minExploration : ℚ
  batchSize : ℕ
  memorySize : ℕ
  deriving Repr, DecidableEq

/-- The constructor defaults of `RLTradingAgent`. -/
def defaultConfig : AgentConfig :=
  { learningRate := 1/1000      -- 0.001
    discountFactor := 19/20     -- 0.95
    explorationRate := 1/10     -- 0.1
    explorationDecay := 199/200 -- 0.995
    minExploration := 1/100     -- 0.01
    batchSize := 32
    memorySize := 10000 }

/-- The mutable state of one `RLTradingAgent` instance. -/
structure Agent where
  qTable : QTable
  config : AgentConfig
  replayMemory : List Experience
  totalEpisodes : ℕ
  totalReward : ℚ

/-- `new RLTradingAgent(config, existingQTable)`: fresh replay memory and
counters; the caller-side merge of a partial config over the defaults is
done before this point. -/
def mkAgent (config : AgentConfig) (existingQTable : QTable) : Agent :=
  { qTable := existingQTable, config := config, replayMemory := []
    totalEpisodes := 0, totalReward := 0 }

/-- `extractState(candles)`: neutral vector below 27 candles, else the
clamped feature vector.  The volatility clamp `min(10, v)` becomes
`min 100 vSq` on the squared feature. -/
def extractState (candles : List Candle) : State :=
  if candles.length < 27 then ⟨0, 50, 0, 0, 0, 0⟩
  else
    let currentPrice := (candles.getLastD cd0).close
    let prevPrice := (candles.getD (candles.length - 2) cd0).close
    let priceChange := (currentPrice - prevPrice) / prevPrice * 100
    let rsi := calculateRSI candles
    let macd := calculateMACD candles
    let macdSignal : ℚ := if 0 < macd.2.2 then 1 else if macd.2.2 < 0 then -1 else 0
    let currentVolume := (candles.getLastD cd0).volume
    let prevVolume := (candles.getD (candles.length - 2) cd0).volume
    let volumeChange := if 0 < prevVolume then (currentVolume - prevVolume) / prevVolume * 100 else 0
    let trendStrength := calculateTrendStrength candles
    let volatilitySq := calculateVolatilitySq candles
    { priceChange := max (-10) (min 10 priceChange)
      rsi := rsi
      macdSignal := macdSignal
      volumeChange := max (-100) (min 100 volumeChange)
      trendStrength := max (-10) (min 10 trendStrength)
      volatilitySq := min 100 volatilitySq }

/-- `discretizeState(state)`: bucket every feature into a small level.
The volatility thresholds `v > 5` / `v > 2` become `vSq > 25` / `vSq > 4`
on the squared feature. -/
def discretizeState (state : State) : SKey :=
  (⌊state.priceChange / 2⌋,
   ⌊state.rsi / 20⌋,
   state.macdSignal,
   if 50 < state.volumeChange then 2 else if -50 < state.volumeChange then 1 else 0,
   if 2 < state.trendStrength then 2 else if -2 < state.trendStrength then 1 else 0,
   if 25 < state.volatilitySq then 2 else if 4 < state.volatilitySq then 1 else 0)

/-- Association-list lookup in the Q-table. -/
def qlookup (qt : QTable) (k : SKey) : Option QValues :=
  (qt.find? (fun e => decide (e.1 = k))).map (·.2)

/-- `getQValues(stateKey)`: lazy zero-initialization — reading a missing
key inserts `{buy: 0, sell: 0, hold: 0}` and returns it, so the read
also returns the (possibly grown) table. -/
def getQValues (qt : QTable) (k : SKey) : QValues × QTable :=
  match qlookup qt k with
  | some v => (v, qt)
  | none => (QValues.zero, qt ++ [(k, QValues.zero)])

/-- `this.qTable[stateKey][action] = v` (the key is always present when
the source executes this assignment). -/
def qset (qt : QTable) (k : SKey) (a : Action) (v : ℚ) : QTable :=
  qt.map (fun e => if e.1 = k then (e.1, e.2.set a v) else e)

/-- `selectAction(state, explore)`: when `explore` and the first random
draw falls below the exploration rate, a uniformly random action;
otherwise greedy with the fixed priority buy ≥ sell ≥ hold.  The two
`Math.random()` draws are the explicit arguments `rEps` (compared with
the exploration rate) and `rIdx` (the random action index); the table is
returned as well because the lookup may lazily insert the key. -/
def selectAction (cfg : AgentConfig) (qt : QTable) (state : State)
    (explore : Bool) (rEps : ℚ) (rIdx : Fin 3) : Action × QTable :=
  let sk := discretizeState state
  let gq := getQValues qt sk
  if explore ∧ rEps < cfg.explorationRate then
    ([Action.buy, Action.sell, Action.hold].get rIdx, gq.2)
  else if gq.1.sell ≤ gq.1.buy ∧ gq.1.hold ≤ gq.1.buy then (.buy, gq.2)
  else if gq.1.buy ≤ gq.1.sell ∧ gq.1.hold ≤ gq.1.sell then (.sell, gq.2)
  else (.hold, gq.2)

/-- A prediction: chosen action, confidence, the Q-values consulted and
the raw feature vector. -/
structure Prediction where
  action : Action
  confidence : ℚ
  qValues : QValues
  stateFeatures : State
  deriving Repr, DecidableEq

/-- `predict(candles)`: greedy selection (`explore = false`) plus a
confidence score; `0.33` when all action values are zero.  The random
draw arguments are passed through untouched so that theorems can state
that the result does not depend on them. -/
def predict (cfg : AgentConfig) (qt : QTable) (candles : List Candle)
    (rEps : ℚ) (rIdx : Fin 3) : Prediction × QTable :=
  let state := extractState candles
  let sk := discretizeState state
  let gq := getQValues qt sk
  let qValues := gq.1
  let sel := selectAction cfg gq.2 state false rEps rIdx
  let sumQ := |qValues.buy| + |qValues.sell| + |qValues.hold|
  let confidence := if 0 < sumQ then |qValues.get sel.1| / sumQ else 33/100   -- 0.33
  ({ action := sel.1, confidence := confidence, qValues := qValues
     stateFeatures := state }, sel.2)

/-- `updateQValue(state, action, reward, nextState)`: the single-step
Q-learning update `Q(s,a) += α·(r + γ·max Q(s',·) − Q(s,a))`. -/
def updateQValue (cfg : AgentConfig) (qt : QTable) (state : State)
    (action : Action) (reward : ℚ) (nextState : State) : QTable :=
  let sk := discretizeState state
  let nk := discretizeState nextState
  let gq := getQValues qt sk
  let currentQ := gq.1.get action
  let gq2 := getQValues gq.2 nk
  let maxNextQ := max (max gq2.1.buy gq2.1.sell) gq2.1.hold
  let newQ := currentQ + cfg.learningRate * (reward + cfg.discountFactor * maxNextQ - currentQ)
  qset gq2.2 sk action newQ

/-- `addExperience(experience)`: FIFO replay buffer bounded by
`memorySize` (push, then shift the oldest when over capacity). -/
def addExperience (cfg : AgentConfig) (mem : List Experience) (e : Experience) : List Experience :=
  let mem' := mem ++ [e]
  if cfg.memorySize < mem'.length then mem'.drop 1 else mem'

/-- `replayBatch()`: skip silently below one full batch, else apply
`batchSize` Q-updates at uniformly random buffer indices, modelled by
the draw function `batchIdx` reduced modulo the buffer length. -/
def replayBatch (cfg : AgentConfig) (qt : QTable) (mem : List Experience)
    (batchIdx : ℕ → ℕ) : QTable :=
  if mem.length < cfg.batchSize then qt
  else
    (List.range cfg.batchSize).foldl
      (fun q j =>
        let e := mem.getD (batchIdx j % mem.length) exp0
        updateQValue cfg q e.state e.action e.reward e.nextState) qt

/-- The per-iteration random draws of a training step: the two
`selectAction` draws plus the batch-sampling draws of `replayBatch`. -/
abbrev RngStep : Type := ℚ × Fin 3 × (ℕ → ℕ)

/-- The mutable loop state of one episode of `train`. -/
structure TrainLoopState where
  qt : QTable
  mem : List Experience
  capital : ℚ
  position : ℚ
  entryPrice : ℚ
  totalReward : ℚ
  maxCapital : ℚ
  maxDrawdown : ℚ
  buyActions : ℕ
  sellActions : ℕ
  holdActions : ℕ
  wins : ℕ
  trades : ℕ
  actionsList : List (Action × ℚ)

/-- The episode statistics returned by `train`. -/
structure TrainingResult where
  episodeNumber : ℕ
  totalReward : ℚ
  totalActions : ℕ
  buyActions : ℕ
  sellActions : ℕ
  holdActions : ℕ
  startingCapital : ℚ
  endingCapital : ℚ
  profitLoss : ℚ
  profitLossPercent : ℚ
  maxDrawdown : ℚ
  winRate : ℚ
  explorationRate : ℚ
  deriving Repr, DecidableEq

/-- One iteration of the `train` episode loop at bar `i` (the body of
`for (let i = windowSize; i < candles.length - 1; i++)`); `windowSize`
is 30, so the window is `candles.slice(i - 30, i + 1)`. -/
def trainStep (cfg : AgentConfig) (candles : List Candle) (rng : ℕ → RngStep)
    (st : TrainLoopState) (i : ℕ) : TrainLoopState :=
  let windowCandles := (candles.drop (i - 30)).take 31
  let state := extractState windowCandles
  let r := rng i
  let sel := selectAction cfg st.qt state true r.1 r.2.1
  let action := sel.1
  let qt1 := sel.2
  let currentPrice := (candles.getD i cd0).close
  let nextPrice := (candles.getD (i + 1) cd0).close
  -- the effect of the `switch (action)` on the trading state
  let step :
      ℚ × ℚ × ℚ × ℚ × ℕ × ℕ × ℕ × ℕ × ℕ :=   -- capital, position, entryPrice, reward, buy/sell/hold counts, wins, trades
    match action with
    | .buy =>
      let position' := if st.position = 0 then st.capital / currentPrice else st.position
      let entryPrice' := if st.position = 0 then currentPrice else st.entryPrice
      let capital' := if st.position = 0 then 0 else st.capital
      let reward := if 0 < position' then (nextPrice - currentPrice) / currentPrice * 100 else 0
      (capital', position', entryPrice', reward, st.buyActions + 1, st.sellActions, st.holdActions, st.wins, st.trades)
    | .sell =>
      if 0 < st.position then
        let exitValue := st.position * currentPrice
        let tradeProfit := exitValue - st.position * st.entryPrice
        -- the denominator `position > 0 ? position * entryPrice : capital` is
        -- evaluated after `position = 0` and `capital = exitValue`, so it is
        -- the exit value (division by zero when the exit value is 0 follows
        -- the Lean convention; reachable only at a zero price)
        let reward := tradeProfit / exitValue * 100
        (exitValue, 0, 0, reward, st.buyActions, st.sellActions + 1, st.holdActions,
         if 0 < tradeProfit then st.wins + 1 else st.wins, st.trades + 1)
      else
        (st.capital, st.position, st.entryPrice, -(1/10), st.buyActions, st.sellActions + 1,
         st.holdActions, st.wins, st.trades)
    | .hold =>
      let reward := if 0 < st.position then (nextPrice - currentPrice) / currentPrice * 50 else -(1/20)
      (st.capital, st.position, st.entryPrice, reward, st.buyActions, st.sellActions,
       st.holdActions + 1, st.wins, st.trades)
  let capital' := step.1
  let position' := step.2.1
  let entryPrice' := step.2.2.1
  let reward := step.2.2.2.1
  let currentValue := capital' + position' * currentPrice
  let maxCapital' := max st.maxCapital currentValue
  let drawdown := (maxCapital' - currentValue) / maxCapital' * 100
  let nextWindowCandles := (candles.drop (i - 29)).take 31
  let nextState := extractState nextWindowCandles
  let mem1 := addExperience cfg st.mem
    ⟨state, action, reward, nextState, decide (i = candles.length - 2)⟩
  let qt2 := if cfg.batchSize ≤ mem1.length then replayBatch cfg qt1 mem1 r.2.2 else qt1
  { qt := qt2
    mem := mem1
    capital := capital'
    position := position'
    entryPrice := entryPrice'
    totalReward := st.totalReward + reward
    maxCapital := maxCapital'
    maxDrawdown := max st.maxDrawdown drawdown
    buyActions := step.2.2.2.2.1
    sellActions := step.2.2.2.2.2.1
    holdActions := step.2.2.2.2.2.2.1
    wins := step.2.2.2.2.2.2.2.1
    trades := step.2.2.2.2.2.2.2.2
    actionsList := st.actionsList ++ [(action, reward)] }

/-- The whole episode loop of `train`: bars 30 through
`candles.length - 2`, starting from the given table, memory and capital. -/
def trainLoop (cfg : AgentConfig) (candles : List Candle) (rng : ℕ → RngStep)
    (qt : QTable) (mem : List Experience) (initialCapital : ℚ) : TrainLoopState :=
  (List.range' 30 (candles.length - 31)).foldl (trainStep cfg candles rng)
    { qt := qt, mem := mem, capital := initialCapital, position := 0, entryPrice := 0
      totalReward := 0, maxCapital := initialCapital, maxDrawdown := 0
      buyActions := 0, sellActions := 0, holdActions := 0, wins := 0, trades := 0
      actionsList := [] }

/-- The loop state after the first `k` iterations of the `train` episode
loop (used to state loop invariants). -/
def trainStateAfter (cfg : AgentConfig) (candles : List Candle) (rng : ℕ → RngStep)
    (qt : QTable) (mem : List Experience) (initialCapital : ℚ) (k : ℕ) : TrainLoopState :=
  ((List.range' 30 (candles.length - 31)).take k).foldl (trainStep cfg candles rng)
    { qt := qt, mem := mem, capital := initialCapital, position := 0, entryPrice := 0
      totalReward := 0, maxCapital := initialCapital, maxDrawdown := 0
      buyActions := 0, sellActions := 0, holdActions := 0, wins := 0, trades := 0
      actionsList := [] }

/-- `train(candles, initialCapital = 10000)`: throws below 50 candles
(modelled by `Except.error`, the agent returned untouched); otherwise
runs one episode, force-closes any open position at the final close,
decays the exploration rate down to its floor, bumps the episode
counters and returns the episode statistics. -/
def train (a : Agent) (candles : List Candle) (initialCapital : ℚ)
    (rng : ℕ → RngStep) : Except String TrainingResult × Agent :=
  if candles.length < 50 then
    (.error "Need at least 50 candles for training", a)
  else
    let st := trainLoop a.config candles rng a.qTable a.replayMemory initialCapital
    let capital := if 0 < st.position then st.position * (candles.getLastD cd0).close else st.capital
    let newRate := max a.config.minExploration (a.config.explorationRate * a.config.explorationDecay)
    let totalEpisodes := a.totalEpisodes + 1
    let profitLoss := capital - initialCapital
    (.ok
      { episodeNumber := totalEpisodes
        totalReward := st.totalReward
        totalActions := st.buyActions + st.sellActions + st.holdActions
        buyActions := st.buyActions
        sellActions := st.sellActions
        holdActions := st.holdActions
        startingCapital := initialCapital
        endingCapital := capital
        profitLoss := profitLoss
        profitLossPercent := profitLoss / initialCapital * 100
        maxDrawdown := st.maxDrawdown
        winRate := if 0 < st.trades then ((st.wins : ℚ) / st.trades) * 100 else 0
        explorationRate := newRate },
     { qTable := st.qt
       config := { a.config with explorationRate := newRate }
       replayMemory := st.mem
       totalEpisodes := totalEpisodes
       totalReward := a.totalReward + st.totalReward })

/-- The statistics record returned by `getStats()`. -/
structure AgentStats where
  totalEpisodes : ℕ
  totalReward : ℚ
  avgReward : ℚ
  explorationRate : ℚ
  statesLearned : ℕ
  deriving Repr, DecidableEq

/-- `getStats()`: episode counters, current exploration rate and the
number of Q-table keys. -/
def getStats (a : Agent) : AgentStats :=
  { totalEpisodes := a.totalEpisodes
    totalReward := a.totalReward
    avgReward := if 0 < a.totalEpisodes then a.totalReward / (a.totalEpisodes : ℚ) else 0
    explorationRate := a.config.explorationRate
    statesLearned := a.qTable.length }

/-- `reset()`: clears the Q-table, replay memory and counters, and sets
`explorationRate` to the literal `0.1` (not the configured start). -/
def reset (a : Agent) : Agent :=
  { qTable := []
    replayMemory := []
    totalEpisodes := 0
    totalReward := 0
    config := { a.config with explorationRate := 1/10 } }   -- the literal 0.1

/-- One training episode as consumed by `trainMany`: a candle series, an
initial capital and the episode's random draws. -/
abbrev EpisodeInput : Type := List Candle × ℚ × (ℕ → RngStep)

/-- A sequence of `train` calls, each carrying its own inputs; the agent
returned by one call (also on failure, where it is unchanged) feeds the
next. -/
def trainMany (a : Agent) (eps : List EpisodeInput) : Agent :=
  eps.foldl (fun ag e => (train ag e.1 e.2.1 e.2.2).2) a

end RL

/-! ## Market-Structure Analyzer (`src/server/smc.ts`) -/

namespace SMC

/-- List slicing helper for JS `array.slice(-n)`: the last `n` elements. -/
def takeLast (n : ℕ) (l : List α) : List α := l.drop (l.length - n)

/-- Direction of an SMC artifact. -/
inductive Dir where
  | bullish
  | bearish
  deriving Repr, DecidableEq

/-- `FairValueGap` (descriptive numeric fields included; `filled` is set
once at detection time and is always `false` there). -/
structure FairValueGap where
  type : Dir
  startPrice : ℚ
  endPrice : ℚ
  gapSize : ℚ
  gapPercent : ℚ
  timestamp : ℤ
  filled : Bool
  deriving Repr, DecidableEq

/-- `OrderBlock`. -/
structure OrderBlock where
  type : Dir
  priceHigh : ℚ
  priceLow : ℚ
  strength : ℚ
  timestamp : ℤ
  tested : Bool
  deriving Repr, DecidableEq

/-- Side of a `LiquiditySweep`. -/
inductive SweepSide where
  | buy_side
  | sell_side
  deriving Repr, DecidableEq

/-- `LiquiditySweep`. -/
structure LiquiditySweep where
  type : SweepSide
  level : ℚ
  sweptAt : ℤ
  priceAfterSweep : ℚ
  reversal : Bool
  deriving Repr, DecidableEq

/-- Gaps recorded for one 3-candle window of `detectFairValueGaps`: the
bearish check (`candle1.low > candle3.high`) then the bullish check
(`candle3.low > candle1.high`), each recorded only when the gap exceeds
0.1% of the middle candle's close. -/
def fvgStep (candle1 candle2 candle3 : Candle) : List FairValueGap :=
  (if candle3.high < candle1.low then
    let gapSize := candle1.low - candle3.high
    let gapPercent := gapSize / candle2.close * 100
    if 1/10 < gapPercent then
      [{ type := .bearish, startPrice := candle3.high, endPrice := candle1.low
         gapSize := gapSize, gapPercent := gapPercent, timestamp := candle2.time
         filled := false }]
    else []
  else []) ++
  (if candle1.high < candle3.low then
    let gapSize := candle3.low - candle1.high
    let gapPercent := gapSize / candle2.close * 100
    if 1/10 < gapPercent then
      [{ type := .bullish, startPrice := candle1.high, endPrice := candle3.low
         gapSize := gapSize, gapPercent := gapPercent, timestamp := candle2.time
         filled := false }]
    else []
  else [])

/-- The consecutive-3-candle scan of `detectFairValueGaps`. -/
def fvgScan : List Candle → List FairValueGap
  | c1 :: c2 :: c3 :: rest => fvgStep c1 c2 c3 ++ fvgScan (c2 :: c3 :: rest)
  | _ => []

/-- `detectFairValueGaps(candles)`: the 3-candle scan, keeping only the
most recent 10 gaps (`gaps.slice(-10)`). -/
def detectFairValueGaps (candles : List Candle) : List FairValueGap :=
  takeLast 10 (fvgScan candles)

/-- Blocks recorded for one 4-candle window of `detectOrderBlocks`
(`prevCandles = [a, b]`, `candle = c`, `nextCandle = d`). -/
def obStep (a b c d : Candle) : List OrderBlock :=
  let prevTrend := (a.close - a.open_) + (b.close - b.open_)
  let bodySize := |c.close - c.open_|
  -- `strength = bodySize / (high - low) * 100`; a zero range makes the
  -- source compute NaN (never > 50), the model's convention 0 agrees
  let strength := bodySize / (c.high - c.low) * 100
  (if c.open_ < c.close ∧ prevTrend < 0 ∧ 50 < strength then
    [{ type := .bullish, priceHigh := max c.open_ c.close, priceLow := min c.open_ c.close
       strength := min strength 100, timestamp := c.time, tested := d.low ≤ c.high }]
  else []) ++
  (if c.close < c.open_ ∧ 0 < prevTrend ∧ 50 < strength then
    [{ type := .bearish, priceHigh := max c.open_ c.close, priceLow := min c.open_ c.close
       strength := min strength 100, timestamp := c.time, tested := c.low ≤ d.high }]
  else [])

/-- The consecutive-4-candle scan of `detectOrderBlocks`. -/
def obScan : List Candle → List OrderBlock
  | a :: b :: c :: d :: rest => obStep a b c d ++ obScan (b :: c :: d :: rest)
  | _ => []

/-- `detectOrderBlocks(candles)`: the 4-candle scan (for each `i ≥ 3`, the
block candidate is `candles[i-1]` with prior trend from `candles[i-3..i-2]`
and `tested` judged against `candles[i]`), keeping the most recent 10. -/
def detectOrderBlocks (candles : List Candle) : List OrderBlock :=
  takeLast 10 (obScan candles)

/-- The swing-point collection pass of `detectLiquiditySweeps`: scans
triples `(candles[i-1], candles[i], candles[i+1])` for `i = 2 .. len-2`,
recording local swing highs and lows with their index.  `i` is the index
of the middle candle of the current triple. -/
def swingScan (i : ℕ) : List Candle → List (ℚ × ℕ) × List (ℚ × ℕ)
  | p :: c :: n :: rest =>
    let sw := swingScan (i + 1) (c :: n :: rest)
    ((if p.high < c.high ∧ n.high < c.high then [(c.high, i)] else []) ++ sw.1,
     (if c.low < p.low ∧ c.low < n.low then [(c.low, i)] else []) ++ sw.2)
  | _ => ([], [])

/-- The sweeps recorded at bar `i` of the second pass of
`detectLiquiditySweeps`: every collected swing high whose index precedes
`i - 3` and whose level is pierced upward by more than 0.1% yields a
buy-side sweep, mirrored for lows; the reversal flag compares the next
candle's close (the candle itself on the final bar — `candles[i+1] ||
candle`) against the swept level. -/
def sweepsAt (candles : List Candle) (highs lows : List (ℚ × ℕ)) (i : ℕ) : List LiquiditySweep :=
  let candle := candles.getD i cd0
  let nextCandle := if i + 1 < candles.length then candles.getD (i + 1) cd0 else candle
  (highs.filterMap (fun h =>
    if h.2 < i - 3 ∧ h.1 * (1001/1000) < candle.high then
      some { type := .buy_side, level := h.1, sweptAt := candle.time
             priceAfterSweep := nextCandle.close, reversal := nextCandle.close < h.1 }
    else none)) ++
  (lows.filterMap (fun l =>
    if l.2 < i - 3 ∧ candle.low < l.1 * (999/1000) then
      some { type := .sell_side, level := l.1, sweptAt := candle.time
             priceAfterSweep := nextCandle.close, reversal := l.1 < nextCandle.close }
    else none))

/-- `detectLiquiditySweeps(candles)`: swing collection, then the forward
scan over bars `5 .. len-1`, keeping the most recent 10 sweeps. -/
def detectLiquiditySweeps (candles : List Candle) : List LiquiditySweep :=
  let swings := swingScan 2 (candles.drop 1)
  takeLast 10 ((List.range' 5 (candles.length - 5)).foldl
    (fun acc i => acc ++ sweepsAt candles swings.1 swings.2 i) [])

/-- Market structure classification. -/
inductive Structure where
  | bullish
  | bearish
  | ranging
  deriving Repr, DecidableEq

/-- `determineMarketStructure(candles)`: stride-4 higher-high/lower-low
count over the trailing 20 candles; a side must beat the other by 1.3×. -/
def determineMarketStructure (candles : List Candle) : Structure :=
  if candles.length < 10 then .ranging
  else
    let recent := takeLast 20 candles
    let counts := (List.range' 4 (recent.length - 4)).foldl
      (fun (s : ℕ × ℕ × ℕ × ℕ) i =>
        let curr := recent.getD i cd0
        let prev := recent.getD (i - 4) cd0
        (if prev.high < curr.high then s.1 + 1 else s.1,
         if curr.low < prev.low then s.2.1 + 1 else s.2.1,
         if prev.low < curr.low then s.2.2.1 + 1 else s.2.2.1,
         if curr.high < prev.high then s.2.2.2 + 1 else s.2.2.2))
      (0, 0, 0, 0)
    let bullishScore : ℚ := (counts.1 : ℚ) + (counts.2.2.1 : ℚ)
    let bearishScore : ℚ := (counts.2.1 : ℚ) + (counts.2.2.2 : ℚ)
    if bearishScore * (13/10) < bullishScore then .bullish
    else if bullishScore * (13/10) < bearishScore then .bearish
    else .ranging

/-- Directional bias. -/
inductive Bias where
  | long
  | short
  | neutral
  deriving Repr, DecidableEq

/-- `determineBias(structure, orderBlocks, fvgs, sweeps)`: the weighted
point system (structure 30, untested order block 10 over the last 5,
unfilled FVG 8 over the last 5, confirmed-reversal sweep 15 over the
last 3), requiring a 1.2× margin for a directional bias. -/
def determineBias (struct : Structure) (orderBlocks : List OrderBlock)
    (fvgs : List FairValueGap) (sweeps : List LiquiditySweep) : Bias × ℚ :=
  let s0 : ℚ × ℚ :=
    (if struct = .bullish then ((30 : ℚ), (0 : ℚ))
     else if struct = .bearish then (0, 30) else (0, 0))
  let s1 := (takeLast 5 orderBlocks).foldl
    (fun (s : ℚ × ℚ) ob =>
      (if ob.type = .bullish ∧ ¬ob.tested then s.1 + 10 else s.1,
       if ob.type = .bearish ∧ ¬ob.tested then s.2 + 10 else s.2)) s0
  let s2 := (takeLast 5 fvgs).foldl
    (fun (s : ℚ × ℚ) fvg =>
      (if fvg.type = .bullish ∧ ¬fvg.filled then s.1 + 8 else s.1,
       if fvg.type = .bearish ∧ ¬fvg.filled then s.2 + 8 else s.2)) s1
  let s3 := (takeLast 3 sweeps).foldl
    (fun (s : ℚ × ℚ) sweep =>
      (if sweep.type = .sell_side ∧ sweep.reversal then s.1 + 15 else s.1,
       if sweep.type = .buy_side ∧ sweep.reversal then s.2 + 15 else s.2)) s2
  let bullishScore := s3.1
  let bearishScore := s3.2
  let maxScore : ℚ := 100
  if bearishScore * (6/5) < bullishScore then
    (.long, min (bullishScore / maxScore * 100) 95)
  else if bullishScore * (6/5) < bearishScore then
    (.short, min (bearishScore / maxScore * 100) 95)
  else
    (.neutral, min (max bullishScore bearishScore / maxScore * 100) 50)

/-- One session kill zone (presentation strings of the source omitted;
they carry no behavior). -/
structure KillZone where
  startHour : ℕ
  endHour : ℕ
  isActive : Bool
  deriving Repr, DecidableEq

/-- The four fixed UTC session windows (Asian, London, NY AM, NY PM). -/
def KILL_ZONES : List (ℕ × ℕ) := [(0, 8), (8, 12), (13, 16), (19, 21)]

/-- `getActiveKillZones()` evaluated at the UTC hour `utcHour` (the
source reads the wall clock; the hour is an explicit parameter here). -/
def getActiveKillZones (utcHour : ℕ) : List KillZone :=
  KILL_ZONES.map (fun kz =>
    { startHour := kz.1, endHour := kz.2
      isActive := decide (kz.1 ≤ utcHour ∧ utcHour < kz.2) })

/-- The aggregate `SMCAnalysis` (the `symbol`/`timestamp` metadata fields
of the source carry no behavior and are omitted). -/
structure SMCAnalysis where
  killZones : List KillZone
  activeKillZone : Option KillZone
  fairValueGaps : List FairValueGap
  orderBlocks : List OrderBlock
  liquiditySweeps : List LiquiditySweep
  marketStructure : Structure
  bias : Bias
  confidenceScore : ℚ
  deriving Repr, DecidableEq

/-- `analyzeSMC(symbol, candles)` evaluated at UTC hour `utcHour`. -/
def analyzeSMC (utcHour : ℕ) (candles : List Candle) : SMCAnalysis :=
  let killZones := getActiveKillZones utcHour
  let fairValueGaps := detectFairValueGaps candles
  let orderBlocks := detectOrderBlocks candles
  let liquiditySweeps := detectLiquiditySweeps candles
  let marketStructure := determineMarketStructure candles
  let bc := determineBias marketStructure orderBlocks fairValueGaps liquiditySweeps
  { killZones := killZones
    activeKillZone := killZones.find? (·.isActive)
    fairValueGaps := fairValueGaps
    orderBlocks := orderBlocks
    liquiditySweeps := liquiditySweeps
    marketStructure := marketStructure
    bias := bc.1
    confidenceScore := bc.2 }

/-- JS `Math.round`: round half toward positive infinity. -/
def jsRound (x : ℚ) : ℤ := ⌊x + 1 / 2⌋

/-- The kill-zone-boosted confidence used by `generateSMCSignal`:
`min(confidence * 1.2, 95)` inside an active kill zone, the raw
analysis confidence otherwise. -/
def boostedConfidence (a : SMCAnalysis) : ℚ :=
  if a.activeKillZone.isSome then min (a.confidenceScore * (6/5)) 95
  else a.confidenceScore

/-- The signal returned by `generateSMCSignal` (the human-readable
`reason` string is presentational and omitted). -/
structure SMCSignal where
  action : Action
  confidence : ℤ
  killZoneBonus : Bool
  deriving Repr, DecidableEq

/-- The action chosen by `generateSMCSignal` (the mutable `action`
variable of the source): act only with a directional bias, a boosted
confidence of at least 60 and a concrete artifact (sweep, or order
block with or without FVG confluence). -/
def signalAction (a : SMCAnalysis) : Action :=
  if a.bias = .long ∧ 60 ≤ boostedConfidence a then
    if ((a.liquiditySweeps.filter (fun s => s.type = .sell_side ∧ s.reversal)).getLast?).isSome then .buy
    else if ((a.orderBlocks.filter (fun ob => ob.type = .bullish ∧ ¬ob.tested)).getLast?).isSome ∧
            ((a.fairValueGaps.filter (fun f => f.type = .bullish ∧ ¬f.filled)).getLast?).isSome then .buy
    else if ((a.orderBlocks.filter (fun ob => ob.type = .bullish ∧ ¬ob.tested)).getLast?).isSome then .buy
    else .hold
  else if a.bias = .short ∧ 60 ≤ boostedConfidence a then
    if ((a.liquiditySweeps.filter (fun s => s.type = .buy_side ∧ s.reversal)).getLast?).isSome then .sell
    else if ((a.orderBlocks.filter (fun ob => ob.type = .bearish ∧ ¬ob.tested)).getLast?).isSome ∧
            ((a.fairValueGaps.filter (fun f => f.type = .bearish ∧ ¬f.filled)).getLast?).isSome then .sell
    else if ((a.orderBlocks.filter (fun ob => ob.type = .bearish ∧ ¬ob.tested)).getLast?).isSome then .sell
    else .hold
  else .hold

/-- `generateSMCSignal(analysis)`: the chosen action, the rounded
confidence (capped at 40 on hold) and the kill-zone flag. -/
def generateSMCSignal (a : SMCAnalysis) : SMCSignal :=
  { action := signalAction a
    confidence := jsRound (if signalAction a = .hold then min (boostedConfidence a) 40
      else boostedConfidence a)
    killZoneBonus := a.activeKillZone.isSome }

end SMC


/-! ## Backtest Engine (`src/unnamed/part_001`) -/

namespace BT

open Ind

/-- Strategy identifier (`StrategyType`). -/
inductive StrategyType where
  | rsi
  | macd
  | sma
  | combined
  | smc
  deriving Repr, DecidableEq

/-- The engine configuration after the constructor has merged the
caller's options over the documented defaults. -/
structure BacktestConfig where
  strategy : StrategyType
  symbol : String
  initialCapital : ℚ
  rsiPeriod : ℕ
  rsiBuyThreshold : ℚ
  rsiSellThreshold : ℚ
  macdFastPeriod : ℕ
  macdSlowPeriod : ℕ
  macdSignalPeriod : ℕ
  smaPeriod : ℕ
  stopLossPercent : ℚ
  takeProfitPercent : ℚ

/-- The constructor defaults of `BacktestEngine`. -/
def defaultBtConfig (strategy : StrategyType) (symbol : String)
    (initialCapital : ℚ) : BacktestConfig :=
  { strategy := strategy, symbol := symbol, initialCapital := initialCapital
    rsiPeriod := 14, rsiBuyThreshold := 30, rsiSellThreshold := 70
    macdFastPeriod := 12, macdSlowPeriod := 26, macdSignalPeriod := 9
    smaPeriod := 20, stopLossPercent := 2, takeProfitPercent := 5 }

/-- `getRSISignal(prices)`. -/
def getRSISignal (cfg : BacktestConfig) (prices : List ℚ) : Action :=
  let rsi := calculateRSI prices cfg.rsiPeriod
  if rsi < cfg.rsiBuyThreshold then .buy
  else if cfg.rsiSellThreshold < rsi then .sell
  else .hold

/-- `getMACDSignal(prices)`: histogram zero-crossing between the previous
and current bar. -/
def getMACDSignal (cfg : BacktestConfig) (prices : List ℚ) : Action :=
  if prices.length < cfg.macdSlowPeriod + 2 then .hold
  else
    let current := calculateMACD prices cfg.macdFastPeriod cfg.macdSlowPeriod cfg.macdSignalPeriod
    let previous := calculateMACD prices.dropLast cfg.macdFastPeriod cfg.macdSlowPeriod cfg.macdSignalPeriod
    if previous.2.2 < 0 ∧ 0 < current.2.2 then .buy
    else if 0 < previous.2.2 ∧ current.2.2 < 0 then .sell
    else .hold

/-- `getSMASignal(prices)`: price/SMA crossing between the previous and
current bar. -/
def getSMASignal (cfg : BacktestConfig) (prices : List ℚ) : Action :=
  let currentPrice := prices.getLastD 0
  let sma := calculateSMA prices cfg.smaPeriod
  let prevPrice := prices.getD (prices.length - 2) 0
  let prevSMA := calculateSMA prices.dropLast cfg.smaPeriod
  if prevPrice < prevSMA ∧ sma < currentPrice then .buy
  else if prevSMA < prevPrice ∧ currentPrice < sma then .sell
  else .hold

/-- `getCombinedSignal(prices)`: majority vote of the RSI, MACD and SMA
signals. -/
def getCombinedSignal (cfg : BacktestConfig) (prices : List ℚ) : Action :=
  let signals := [getRSISignal cfg prices, getMACDSignal cfg prices, getSMASignal cfg prices]
  if 2 ≤ (signals.filter (· = Action.buy)).length then .buy
  else if 2 ≤ (signals.filter (· = Action.sell)).length then .sell
  else .hold

/-- `getSMCSignal(candles)` of `BacktestEngine`: its own trailing-20-bar
sweep heuristic (it does not call the SMC analyzer): buy when the
current low undercuts every one of the previous 19 lows while the close
rose, sell when the current high exceeds every one of the previous 19
highs while the close fell. -/
def getSMCSignal (candles : List Candle) : Action :=
  if candles.length < 20 then .hold
  else
    let recentCandles := SMC.takeLast 20 candles
    let highs := recentCandles.map Candle.high
    let lows := recentCandles.map Candle.low
    let currentHigh := highs.getLastD 0
    let currentLow := lows.getLastD 0
    -- `Math.max(...highs.slice(0, -1))` over a 19-element list
    let prevHigh := match highs.dropLast with
      | [] => 0        -- unreachable: the window always holds 20 bars
      | x :: xs => xs.foldl max x
    let prevLow := match lows.dropLast with
      | [] => 0
      | x :: xs => xs.foldl min x
    let currentClose := (recentCandles.getLastD cd0).close
    let prevClose := (recentCandles.getD (recentCandles.length - 2) cd0).close
    if currentLow < prevLow ∧ prevClose < currentClose then .buy
    else if prevHigh < currentHigh ∧ currentClose < prevClose then .sell
    else .hold

/-- `getSignal(prices, candles)`: dispatch on the configured strategy. -/
def getSignal (cfg : BacktestConfig) (prices : List ℚ) (candles : List Candle) : Action :=
  match cfg.strategy with
  | .rsi => getRSISignal cfg prices
  | .macd => getMACDSignal cfg prices
  | .sma => getSMASignal cfg prices
  | .combined => getCombinedSignal cfg prices
  | .smc => getSMCSignal candles

/-- A completed order of the simulation (`BacktestTrade`). -/
structure BacktestTrade where
  timestamp : ℤ
  type : Action
  price : ℚ
  quantity : ℚ
  value : ℚ
  pnl : ℚ
  reason : String
  deriving Repr, DecidableEq

/-- One downsampled equity-curve sample (`EquityPoint`). -/
structure EquityPoint where
  timestamp : ℤ
  equity : ℚ
  drawdown : ℚ
  deriving Repr, DecidableEq

/-- The mutable loop state of `BacktestEngine.run`. -/
structure BtState where
  capital : ℚ
  position : ℚ
  entryPrice : ℚ
  maxEquity : ℚ
  maxDrawdown : ℚ
  trades : List BacktestTrade
  equityCurve : List EquityPoint

/-- One iteration of the `run` loop at bar `i`: stop-loss, then
take-profit, then signal exit while long; full-capital entry on a buy
signal while flat; then the equity/drawdown bookkeeping and the
every-5th-bar equity-curve sample. -/
def btStep (cfg : BacktestConfig) (candles : List Candle) (prices : List ℚ)
    (st : BtState) (i : ℕ) : BtState :=
  let priceSlice := prices.take (i + 1)
  let currentPrice := (candles.getD i cd0).close
  let currentTime := (candles.getD i cd0).time
  let signal := getSignal cfg priceSlice (candles.take (i + 1))
  let st1 : BtState :=
    if 0 < st.position then
      let pnlPercent := (currentPrice - st.entryPrice) / st.entryPrice * 100
      let value := st.position * currentPrice
      let pnl := value - st.position * st.entryPrice
      let exitAs (reason : String) : BtState :=
        { st with
          capital := value
          position := 0
          entryPrice := 0
          trades := st.trades ++
            [⟨currentTime, .sell, currentPrice, st.position, value, pnl, reason⟩] }
      if pnlPercent ≤ -cfg.stopLossPercent then exitAs "Stop Loss"
      else if cfg.takeProfitPercent ≤ pnlPercent then exitAs "Take Profit"
      else if signal = .sell then exitAs "Signal Sell"
      else st
    else if signal = .buy ∧ 0 < st.capital then
      let position := st.capital / currentPrice
      { st with
        capital := 0
        position := position
        entryPrice := currentPrice
        trades := st.trades ++
          [⟨currentTime, .buy, currentPrice, position, st.capital, 0, "Signal Buy"⟩] }
    else st
  let currentEquity := st1.capital + st1.position * currentPrice
  let maxEquity := max st1.maxEquity currentEquity
  let drawdown := (maxEquity - currentEquity) / maxEquity * 100
  { st1 with
    maxEquity := maxEquity
    maxDrawdown := max st1.maxDrawdown drawdown
    equityCurve :=
      if i % 5 = 0 ∨ i = candles.length - 1 then
        st1.equityCurve ++ [⟨currentTime, currentEquity, drawdown⟩]
      else st1.equityCurve }

/-- The initial loop state of `run`. -/
def btInit (cfg : BacktestConfig) : BtState :=
  { capital := cfg.initialCapital, position := 0, entryPrice := 0
    maxEquity := cfg.initialCapital, maxDrawdown := 0, trades := [], equityCurve := [] }

/-- The whole `run` loop: bars 30 through the final bar. -/
def btLoop (cfg : BacktestConfig) (candles : List Candle) : BtState :=
  (List.range' 30 (candles.length - 30)).foldl
    (btStep cfg candles (candles.map Candle.close)) (btInit cfg)

/-- The loop state after the first `k` iterations of the `run` loop
(used to state loop invariants). -/
def btStateAfter (cfg : BacktestConfig) (candles : List Candle) (k : ℕ) : BtState :=
  ((List.range' 30 (candles.length - 30)).take k).foldl
    (btStep cfg candles (candles.map Candle.close)) (btInit cfg)

/-- The summary part of `BacktestResult` that the claims touch (trades,
equity curve and scalar statistics; presentation metadata omitted). -/
structure BacktestResult where
  initialCapital : ℚ
  finalCapital : ℚ
  totalTrades : ℕ
  winningTrades : ℕ
  losingTrades : ℕ
  winRate : ℚ
  profitFactor : ℚ
  maxDrawdown : ℚ
  sharpe : ℚ
  totalReturn : ℚ
  totalReturnPercent : ℚ
  trades : List BacktestTrade
  equityCurve : List EquityPoint
  deriving Repr, DecidableEq

/-- The per-sample-interval returns of the downsampled equity curve
(`returns` in `run`; the leading placeholder 0 is sliced away). -/
def curveReturns (curve : List EquityPoint) : List ℚ :=
  (curve.zip (curve.drop 1)).map (fun p => (p.2.equity - p.1.equity) / p.1.equity)

/-- `BacktestEngine.run(candles)`: throws below 50 candles; otherwise the
bar loop, the forced end-of-backtest close, and the statistics.  The
Sharpe ratio multiplies by the irrational `Math.sqrt(252)`; the model
carries the plain `mean / stdev`-squared-free quotient in the field
`sharpe` as `avgReturn² / variance · sign`, i.e. the square of
`mean/stdev` with the sign of the mean, which determines the source
value exactly (monotone bijection); 0 when the deviation is 0. -/
def run (cfg : BacktestConfig) (candles : List Candle) : Except String BacktestResult :=
  if candles.length < 50 then .error "Need at least 50 candles for backtesting"
  else
    let st := btLoop cfg candles
    let finalPrice := (candles.getLastD cd0).close
    let closed : BtState :=
      if 0 < st.position then
        let value := st.position * finalPrice
        { st with
          capital := value
          position := 0
          trades := st.trades ++
            [⟨(candles.getLastD cd0).time, .sell, finalPrice, st.position, value,
              value - st.position * st.entryPrice, "End of Backtest"⟩] }
      else st
    let sellTrades := closed.trades.filter (fun t => t.type = .sell)
    let winningTrades := sellTrades.filter (fun t => 0 < t.pnl)
    let losingTrades := sellTrades.filter (fun t => t.pnl ≤ 0)
    let totalProfit := (winningTrades.map (·.pnl)).sum
    let totalLoss := |(losingTrades.map (·.pnl)).sum|
    -- `Infinity` (positive profit, zero loss) collapses to 0 via the final
    -- `isFinite` guard; the Lean division convention gives 0 there directly
    let profitFactor := if 0 < totalLoss then totalProfit / totalLoss else 0
    let returns := curveReturns closed.equityCurve
    let avgReturn := if returns.length ≠ 0 then returns.sum / (returns.length : ℚ) else 0
    let variance := if returns.length ≠ 0 then
      ((returns.map (fun r => (r - avgReturn) ^ 2)).sum / (returns.length : ℚ)) else 0
    let sharpe := if 0 < variance then avgReturn ^ 2 / variance * 252 *
      (if avgReturn < 0 then -1 else 1) else 0
    let totalReturn := closed.capital - cfg.initialCapital
    .ok
      { initialCapital := cfg.initialCapital
        finalCapital := closed.capital
        totalTrades := closed.trades.length
        winningTrades := winningTrades.length
        losingTrades := losingTrades.length
        winRate := if sellTrades.length ≠ 0 then
          ((winningTrades.length : ℚ) / (sellTrades.length : ℚ)) * 100 else 0
        profitFactor := profitFactor
        maxDrawdown := closed.maxDrawdown
        sharpe := sharpe
        totalReturn := totalReturn
        totalReturnPercent := totalReturn / cfg.initialCapital * 100
        trades := closed.trades
        equityCurve := closed.equityCurve }

end BT


/-! ## Test fixtures used by witnesses and counterexamples -/

/-- A flat candle: open 100, high 101, low 99, close 100, volume 1. -/
def flatC : Candle := ⟨0, 100, 101, 99, 100, 1⟩

/-- 50 flat candles. -/
def flat50 : List Candle := (List.range 50).map (fun i => ⟨(i : ℤ), 100, 101, 99, 100, 1⟩)

/-- Deterministic random draws: exploration sample 1 (never below a rate
in `[0,1]`), action index 0, batch index 0. -/
def rng0 : ℕ → RL.RngStep := fun _ => (1, 0, fun _ => 0)

/-! ## Claims about the RL agent's training entry point (C1) -/

/-- C1: `train` on fewer than 50 candles raises the precondition error
and leaves the agent (Q-table, replay buffer, episode counter,
accumulated reward, exploration rate) completely unchanged; on exactly
50 candles it returns normally — for every agent state, initial capital
and sequence of random draws. -/
theorem C1_train_precondition (a : RL.Agent) (candles : List Candle)
    (cap : ℚ) (rng : ℕ → RL.RngStep) :
    (candles.length < 50 →
      RL.train a candles cap rng = (.error "Need at least 50 candles for training", a)) ∧
    (candles.length = 50 → ((RL.train a candles cap rng).1).isOk = true) := by
  constructor
  · intro h
    simp [RL.train, h]
  · intro h
    simp [RL.train, h, Except.isOk, Except.toBool]

/-- C1 witness: a 3-candle series fails with the untouched agent, and a
50-candle series trains normally. -/
theorem C1_witness :
    (RL.train (RL.mkAgent RL.defaultConfig []) (List.replicate 3 flatC) 10000 rng0
      = (.error "Need at least 50 candles for training", RL.mkAgent RL.defaultConfig [])) ∧
    ((RL.train (RL.mkAgent RL.defaultConfig []) flat50 10000 rng0).1).isOk = true := by
  constructor
  · exact (C1_train_precondition (RL.mkAgent RL.defaultConfig []) (List.replicate 3 flatC)
      10000 rng0).1 (by simp)
  · exact (C1_train_precondition (RL.mkAgent RL.defaultConfig []) flat50 10000 rng0).2
      (by decide)

/-! ## Claims about reset/getStats (C3) -/

/-- An agent constructed with a non-default starting exploration rate 1/2. -/
def agentHalf : RL.Agent :=
  RL.mkAgent { RL.defaultConfig with explorationRate := 1/2 } []

/-- C3 counterexample: for an agent configured with starting exploration
rate 1/2, `reset()` followed by `getStats()` reports exploration rate
0.1 — not the configured starting value — because `reset` hard-codes
the literal `0.1`. -/
theorem C3_counterexample :
    agentHalf.config.explorationRate = 1/2 ∧
    (RL.getStats (RL.reset agentHalf)).explorationRate ≠ 1/2 := by
  constructor
  · rfl
  · with_unfolding_all decide

/-- C3 as amended: after `reset()`, `getStats()` reports zero episodes,
zero total and average reward, zero learned states, and exploration
rate exactly 0.1 (the hard-coded reset value, which coincides with the
default starting rate but not with a caller-configured one) — for every
agent in every state. -/
theorem C3_reset_stats (a : RL.Agent) :
    RL.getStats (RL.reset a) =
      { totalEpisodes := 0, totalReward := 0, avgReward := 0
        explorationRate := 1/10, statesLearned := 0 } := by
  rfl

/-! ## Claims about the indicator fallbacks (C5, C6) -/

/-- C5: on price histories shorter than the required period every
indicator yields its documented fallback instead of failing:
`calculateSMA`/`calculateEMA` return the last price (for a nonempty
history — on an empty one the source yields `undefined`),
`calculateRSI` returns the neutral 50 below `period + 1` prices, and
`calculateMACD` returns the all-zero struct below `slowPeriod` prices;
all four are total functions. -/
theorem C5_indicator_fallbacks :
    (∀ (prices : List ℚ) (period : ℕ) (h : prices ≠ []), prices.length < period →
      Ind.calculateSMA prices period = prices.getLast h ∧
      Ind.calculateEMA prices period = prices.getLast h) ∧
    (∀ (prices : List ℚ) (period : ℕ), prices.length < period + 1 →
      Ind.calculateRSI prices period = 50) ∧
    (∀ (prices : List ℚ) (fp sp sg : ℕ), prices.length < sp →
      Ind.calculateMACD prices fp sp sg = (0, 0, 0)) := by
  refine ⟨fun prices period h hlt => ?_, fun prices period hlt => ?_, fun prices fp sp sg hlt => ?_⟩
  · have hd : prices.getLastD 0 = prices.getLast h := by
      rw [List.getLastD_eq_getLast?, List.getLast?_eq_getLast prices h]
      rfl
    constructor
    · rw [Ind.calculateSMA, if_pos hlt, hd]
    · rw [Ind.calculateEMA, if_pos hlt, hd]
  · rw [Ind.calculateRSI, if_pos hlt]
  · rw [Ind.calculateMACD, if_pos hlt]

/-- C5 witness: concrete short histories hit each fallback. -/
theorem C5_witness :
    Ind.calculateSMA [5, 7] 3 = 7 ∧ Ind.calculateEMA [5, 7] 3 = 7 ∧
    Ind.calculateRSI [42] 14 = 50 ∧ Ind.calculateMACD [9] 12 26 9 = (0, 0, 0) := by
  have h := (C5_indicator_fallbacks.1 [5, 7] 3 (by decide) (by decide))
  exact ⟨by rw [h.1]; rfl, by rw [h.2]; rfl,
    C5_indicator_fallbacks.2.1 [42] 14 (by decide),
    C5_indicator_fallbacks.2.2 [9] 12 26 9 (by decide)⟩

/-- The gains/losses fold accumulates no loss over a window whose deltas
are all non-negative (any non-positive change must then be exactly 0,
contributing `|0| = 0`). -/
theorem rsiLoop_no_loss (f : ℕ → ℚ) :
    ∀ (l : List ℕ) (s : ℚ × ℚ), (∀ i ∈ l, f (i - 1) ≤ f i) →
      (l.foldl (Ind.rsiStep f) s).2 = s.2 := by
  intro l
  induction l with
  | nil => intro s _; rfl
  | cons i tl ih =>
    intro s h
    have hi : f (i - 1) ≤ f i := h i (List.mem_cons_self i tl)
    have htl : ∀ j ∈ tl, f (j - 1) ≤ f j := fun j hj => h j (List.mem_cons_of_mem i hj)
    rw [List.foldl_cons, ih _ htl]
    by_cases hpos : 0 < f i - f (i - 1)
    · simp [Ind.rsiStep, hpos]
    · have hz : f i - f (i - 1) = 0 := le_antisymm (not_lt.mp hpos) (by linarith)
      simp [Ind.rsiStep, hpos, hz]

/-- C6: whenever at least `period + 1` prices are available and every one
of the most recent `period` deltas is non-negative, the RSI is exactly
100 (the average loss is exactly zero) — both for the price-list RSI of
the backtest module and the candle RSI of the RL module. -/
theorem C6_rsi_hundred (prices : List ℚ) (candles : List Candle) (period : ℕ)
    (hp : 0 < period) :
    (period + 1 ≤ prices.length →
      (∀ i, prices.length - period ≤ i → i < prices.length →
        prices.getD (i - 1) 0 ≤ prices.getD i 0) →
      Ind.calculateRSI prices period = 100) ∧
    (period + 1 ≤ candles.length →
      (∀ i, candles.length - period ≤ i → i < candles.length →
        (candles.getD (i - 1) cd0).close ≤ (candles.getD i cd0).close) →
      RL.calculateRSI candles period = 100) := by
  constructor
  · intro hlen hmono
    have hloss : (Ind.rsiLoop (fun i => prices.getD i 0) (prices.length - period) period).2 = 0 := by
      apply rsiLoop_no_loss
      intro i hi
      rw [List.mem_range'_1] at hi
      exact hmono i hi.1 (by omega)
    rw [Ind.calculateRSI, if_neg (by omega)]
    simp only [hloss, zero_div]
    norm_num
  · intro hlen hmono
    have hloss : (Ind.rsiLoop (fun i => (candles.getD i cd0).close)
        (candles.length - period) period).2 = 0 := by
      apply rsiLoop_no_loss
      intro i hi
      rw [List.mem_range'_1] at hi
      exact hmono i hi.1 (by omega)
    rw [RL.calculateRSI, if_neg (by omega)]
    simp only [hloss, zero_div]
    norm_num

/-- C6 witness: 15 equal prices / 15 flat candles give RSI exactly 100. -/
theorem C6_witness :
    Ind.calculateRSI (List.replicate 15 (5 : ℚ)) 14 = 100 ∧
    RL.calculateRSI (List.replicate 15 flatC) 14 = 100 := by
  have h := C6_rsi_hundred (List.replicate 15 (5 : ℚ)) (List.replicate 15 flatC) 14 (by decide)
  refine ⟨h.1 (by simp) ?_, h.2 (by simp) ?_⟩
  · intro i h1 h2
    simp at h2
    interval_cases i <;> decide
  · intro i h1 h2
    simp at h2
    interval_cases i <;> decide


/-! ## Claims about predict (C2) -/

/-- The Q-values consulted by `predict` for a given table and candle
series (the zero-initialized entry of the discretized current state). -/
def RL.qAt (qt : RL.QTable) (candles : List Candle) : RL.QValues :=
  (RL.getQValues qt (RL.discretizeState (RL.extractState candles))).1

/-- A lazy read of a key that was just lazily read returns the same
values without growing the table again. -/
theorem RL.getQValues_getQValues (qt : RL.QTable) (k : RL.SKey) :
    RL.getQValues (RL.getQValues qt k).2 k =
      ((RL.getQValues qt k).1, (RL.getQValues qt k).2) := by
  unfold RL.getQValues
  cases h : RL.qlookup qt k with
  | some v => simp [h]
  | none =>
    have happ : RL.qlookup (qt ++ [(k, RL.QValues.zero)]) k = some RL.QValues.zero := by
      unfold RL.qlookup at h ⊢
      rw [List.find?_append]
      have hqt : qt.find? (fun e => decide (e.1 = k)) = none := by
        cases hf : qt.find? (fun e => decide (e.1 = k)) with
        | none => rfl
        | some e => rw [hf] at h; simp at h
      rw [hqt]
      simp
    simp [h, happ]

/-- C2: `predict` is greedy and deterministic — its result is independent
of the two random draws, the chosen action is the priority argmax
(buy ≥ sell ≥ hold) of the consulted Q-values, and the confidence is
|chosen value| divided by the sum of the absolute values — except that
with all three values zero the confidence is the literal 0.33, not 1/3
(the corrected part of the claim). -/
theorem C2_predict_greedy (cfg : RL.AgentConfig) (qt : RL.QTable)
    (candles : List Candle) (rE rE' : ℚ) (rI rI' : Fin 3) :
    RL.predict cfg qt candles rE rI = RL.predict cfg qt candles rE' rI' ∧
    ((RL.predict cfg qt candles rE rI).1.action =
      (if (RL.qAt qt candles).sell ≤ (RL.qAt qt candles).buy ∧
          (RL.qAt qt candles).hold ≤ (RL.qAt qt candles).buy then Action.buy
       else if (RL.qAt qt candles).buy ≤ (RL.qAt qt candles).sell ∧
          (RL.qAt qt candles).hold ≤ (RL.qAt qt candles).sell then Action.sell
       else Action.hold)) ∧
    (0 < |(RL.qAt qt candles).buy| + |(RL.qAt qt candles).sell| + |(RL.qAt qt candles).hold| →
      (RL.predict cfg qt candles rE rI).1.confidence =
        |(RL.qAt qt candles).get (RL.predict cfg qt candles rE rI).1.action| /
          (|(RL.qAt qt candles).buy| + |(RL.qAt qt candles).sell| + |(RL.qAt qt candles).hold|)) ∧
    (RL.qAt qt candles = RL.QValues.zero →
      (RL.predict cfg qt candles rE rI).1.confidence = 33/100) := by
  have hidem := RL.getQValues_getQValues qt (RL.discretizeState (RL.extractState candles))
  refine ⟨?_, ?_, ?_, ?_⟩
  · simp [RL.predict, RL.selectAction, hidem]
  · simp only [RL.predict, RL.selectAction, RL.qAt, hidem]
    split_ifs <;> simp_all
  · intro hsum
    simp only [RL.predict, RL.selectAction, RL.qAt, hidem] at hsum ⊢
    rw [if_pos hsum]
  · intro hzero
    simp only [RL.qAt] at hzero
    simp only [RL.predict, RL.selectAction, hidem, hzero, RL.QValues.zero]
    norm_num

/-- A table holding the key `predict` consults on an empty candle series,
with action values (2, 1, 0). -/
def qtW : RL.QTable :=
  [(RL.discretizeState (RL.extractState []), ⟨2, 1, 0⟩)]

/-- C2 witness: on that table the nonzero-sum confidence formula gives
|2| / (|2| + |1| + |0|) = 2/3. -/
theorem C2_witness :
    (RL.predict RL.defaultConfig qtW [] 0 0).1.confidence = 2/3 := by
  have h := (C2_predict_greedy RL.defaultConfig qtW [] 0 0 0 0).2.2.1
    (by with_unfolding_all decide)
  rw [h]
  with_unfolding_all decide

/-- C2 counterexample: on a fresh agent (all Q-values zero) `predict`
returns confidence 0.33 — which is not 1/3 as the claim states. -/
theorem C2_counterexample :
    (RL.predict RL.defaultConfig [] [] 0 0).1.confidence = 33/100 ∧
    (33 : ℚ)/100 ≠ 1/3 := by
  constructor
  · with_unfolding_all decide
  · with_unfolding_all decide

/-! ## Claims about the SMC signal thresholds (C7) -/

/-- C7: `generateSMCSignal` acts (buy or sell) only when the kill-zone
boosted, 95-capped confidence is at least 60, and whenever it holds the
returned (rounded) confidence is at most 40. -/
theorem C7_signal_threshold (a : SMC.SMCAnalysis) :
    ((SMC.generateSMCSignal a).action ≠ Action.hold → 60 ≤ SMC.boostedConfidence a) ∧
    ((SMC.generateSMCSignal a).action = Action.hold →
      (SMC.generateSMCSignal a).confidence ≤ 40) := by
  have haction : (SMC.generateSMCSignal a).action = SMC.signalAction a := rfl
  constructor
  · intro h
    rw [haction] at h
    by_cases h1 : a.bias = SMC.Bias.long ∧ 60 ≤ SMC.boostedConfidence a
    · exact h1.2
    · by_cases h2 : a.bias = SMC.Bias.short ∧ 60 ≤ SMC.boostedConfidence a
      · exact h2.2
      · unfold SMC.signalAction at h
        rw [if_neg h1, if_neg h2] at h
        exact absurd rfl h
  · intro h
    rw [haction] at h
    have hconf : (SMC.generateSMCSignal a).confidence =
        SMC.jsRound (min (SMC.boostedConfidence a) 40) := by
      simp [SMC.generateSMCSignal, h]
    rw [hconf]
    unfold SMC.jsRound
    rw [Int.floor_le_iff]
    have := min_le_right (SMC.boostedConfidence a) (40 : ℚ)
    push_cast
    linarith

/-- An analysis with no artifacts and zero confidence (forced hold). -/
def holdAnalysis : SMC.SMCAnalysis :=
  ⟨[], none, [], [], [], .ranging, .neutral, 0⟩

/-- An analysis with a long bias, confidence 80 and an untested bullish
order block (forced buy). -/
def actAnalysis : SMC.SMCAnalysis :=
  ⟨[], none, [], [⟨.bullish, 101, 100, 60, 0, false⟩], [], .bullish, .long, 80⟩

/-- C7 witness: a buying analysis has boosted confidence ≥ 60, and a
holding analysis reports confidence ≤ 40. -/
theorem C7_witness :
    60 ≤ SMC.boostedConfidence actAnalysis ∧
    (SMC.generateSMCSignal holdAnalysis).confidence ≤ 40 := by
  constructor
  · exact (C7_signal_threshold actAnalysis).1 (by with_unfolding_all decide)
  · exact (C7_signal_threshold holdAnalysis).2 (by with_unfolding_all decide)

/-! ## Claims about the fair-value-gap detector (C9) -/

/-- Formalizes the claim's "strictly monotonically rising candle series":
every OHLC field strictly increases from candle to candle. -/
def StrictlyRisingCandles (cs : List Candle) : Prop :=
  List.Chain' (fun a b => a.open_ < b.open_ ∧ a.high < b.high ∧ a.low < b.low ∧ a.close < b.close) cs

/-- Formalizes the claim's "no retracement greater than 0.1% of the
close": no candle's low dips more than 0.1% below the previous close. -/
def NoRetracementOverTenthPercent (cs : List Candle) : Prop :=
  List.Chain' (fun a b => a.close * (1 - 1/1000) ≤ b.low) cs

/-- A strictly rising 3-candle series that gaps up (zero retracement). -/
def rise3 : List Candle :=
  [⟨0, 100, 101, 99, 201/2, 1⟩, ⟨1, 110, 111, 109, 221/2, 1⟩, ⟨2, 120, 121, 119, 241/2, 1⟩]

/-- C9 counterexample: a strictly rising series with no retracement at
all still produces a fair value gap — the gap-ups of a fast rise are
recorded as bullish FVGs, so the claimed empty list is wrong. -/
theorem C9_counterexample :
    StrictlyRisingCandles rise3 ∧ NoRetracementOverTenthPercent rise3 ∧
    SMC.detectFairValueGaps rise3 ≠ [] := by
  refine ⟨?_, ?_, ?_⟩
  · simp [StrictlyRisingCandles, rise3]
    norm_num
  · simp [NoRetracementOverTenthPercent, rise3]
    norm_num
  · with_unfolding_all decide

/-- Formalizes the amended hypothesis: no candle's low exceeds the high
of the candle two places earlier by more than 0.1% of the middle
candle's close (no gap-up beyond the recording threshold). -/
def NoGapUpBeyondThreshold : List Candle → Prop
  | c1 :: c2 :: c3 :: rest =>
    c3.low ≤ c1.high + c2.close / 1000 ∧ NoGapUpBeyondThreshold (c2 :: c3 :: rest)
  | _ => True

/-- The 3-candle scan records nothing on a series with well-formed
candles, nondecreasing lows, positive closes and no gap-up beyond the
0.1% threshold. -/
theorem fvgScan_empty (cs : List Candle)
    (hwf : ∀ c ∈ cs, c.low ≤ c.high)
    (hmono : List.Chain' (fun a b => a.low ≤ b.low) cs)
    (hpos : ∀ c ∈ cs, 0 < c.close)
    (hng : NoGapUpBeyondThreshold cs) :
    SMC.fvgScan cs = [] := by
  induction cs with
  | nil => rfl
  | cons c1 tail ih =>
    match tail, hwf, hmono, hpos, hng, ih with
    | [], _, _, _, _, _ => rfl
    | [c2], _, _, _, _, _ => rfl
    | c2 :: c3 :: rest, hwf, hmono, hpos, hng, ih =>
      rw [SMC.fvgScan]
      have h12 : c1.low ≤ c2.low := (List.chain'_cons.mp hmono).1
      have h23 : c2.low ≤ c3.low := (List.chain'_cons.mp (List.chain'_cons.mp hmono).2).1
      have h3wf : c3.low ≤ c3.high := hwf c3 (by simp)
      have h2pos : 0 < c2.close := hpos c2 (by simp)
      have hstep : SMC.fvgStep c1 c2 c3 = [] := by
        unfold SMC.fvgStep
        rw [if_neg (by push_neg; linarith)]
        by_cases hb : c1.high < c3.low
        · rw [if_pos hb, if_neg]
          · rfl
          · push_neg
            have hgap : c3.low - c1.high ≤ c2.close / 1000 := by linarith [hng.1]
            have h1 : (c3.low - c1.high) / c2.close ≤ c2.close / 1000 / c2.close :=
              (div_le_div_iff_of_pos_right h2pos).mpr hgap
            have h2 : c2.close / 1000 / c2.close = 1 / 1000 := by
              field_simp
              ring
            rw [h2] at h1
            nlinarith
        · rw [if_neg hb]
          rfl
      rw [hstep, List.nil_append]
      exact ih (fun c hc => hwf c (List.mem_cons_of_mem c1 hc))
        (List.chain'_cons.mp hmono).2
        (fun c hc => hpos c (List.mem_cons_of_mem c1 hc)) hng.2

/-- C9 as amended: on a series of well-formed candles with nondecreasing
lows, positive closes and no gap-up beyond the 0.1% recording
threshold, the fair-value-gap detector returns the empty list (the
original claim fails because a rising series may gap up; bearish gaps
are indeed impossible there). -/
theorem C9_fvg_empty (cs : List Candle)
    (hwf : ∀ c ∈ cs, c.low ≤ c.high)
    (hmono : List.Chain' (fun a b => a.low ≤ b.low) cs)
    (hpos : ∀ c ∈ cs, 0 < c.close)
    (hng : NoGapUpBeyondThreshold cs) :
    SMC.detectFairValueGaps cs = [] := by
  unfold SMC.detectFairValueGaps
  rw [fvgScan_empty cs hwf hmono hpos hng]
  rfl

/-- A flat, overlapping 3-candle series. -/
def flat3 : List Candle := List.replicate 3 flatC

/-- C9 witness: the amended statement applied to a flat overlapping
series. -/
theorem C9_witness : SMC.detectFairValueGaps flat3 = [] := by
  refine C9_fvg_empty flat3 ?_ ?_ ?_ ?_
  · intro c hc
    simp only [flat3, List.mem_replicate] at hc
    rw [hc.2]
    norm_num [flatC]
  · simp only [flat3, List.replicate, List.chain'_cons, List.chain'_singleton]
    norm_num [flatC]
  · intro c hc
    simp only [flat3, List.mem_replicate] at hc
    rw [hc.2]
    norm_num [flatC]
  · exact ⟨by norm_num [flatC], trivial⟩


/-! ## Claims about the exploration-rate decay (C4) -/

/-- After a successful `train` call the agent's configuration is
unchanged except for the decayed exploration rate (the episode loop
touches only the Q-table and the replay memory). -/
theorem RL.train_config (a : RL.Agent) (candles : List Candle) (cap : ℚ)
    (rng : ℕ → RL.RngStep) (h : ¬ candles.length < 50) :
    ((RL.train a candles cap rng).2).config =
      { a.config with explorationRate := max a.config.minExploration (a.config.explorationRate * a.config.explorationDecay) } := by
  simp [RL.train, h]

/-- The pure iteration of the per-episode update
`rate := max(minExploration, rate * decay)`. -/
def decayIter (m d : ℚ) : ℚ → ℕ → ℚ
  | r, 0 => r
  | r, n + 1 => decayIter m d (max m (r * d)) n

/-- A sequence of successful `train` calls changes the configuration
only by iterating the exploration-rate update once per episode. -/
theorem RL.trainMany_config (eps : List RL.EpisodeInput) :
    ∀ a : RL.Agent, (∀ e ∈ eps, 50 ≤ e.1.length) →
      (RL.trainMany a eps).config =
        { a.config with explorationRate := decayIter a.config.minExploration a.config.explorationDecay a.config.explorationRate eps.length } := by
  induction eps with
  | nil =>
    intro a _
    simp [RL.trainMany, decayIter]
  | cons e rest ih =>
    intro a h
    have h50 : ¬ e.1.length < 50 := not_lt.mpr (h e (List.mem_cons_self e rest))
    have hrest : ∀ e' ∈ rest, 50 ≤ e'.1.length := fun e' he' => h e' (List.mem_cons_of_mem e he')
    have hstep := RL.train_config a e.1 e.2.1 e.2.2 h50
    show (RL.trainMany ((RL.train a e.1 e.2.1 e.2.2).2) rest).config = _
    rw [ih _ hrest, hstep]
    simp [decayIter]

/-- Closed form of the iterated update with a nonnegative floor. -/
theorem decayIter_closed_nonneg (m d : ℚ) (hm : 0 ≤ m) (hd0 : 0 < d) (hd1 : d ≤ 1) :
    ∀ (n : ℕ) (r : ℚ), decayIter m d r (n + 1) = max m (r * d ^ (n + 1)) := by
  intro n
  induction n with
  | zero =>
    intro r
    simp [decayIter, pow_one]
  | succ k ih =>
    intro r
    show decayIter m d (max m (r * d)) (k + 1) = _
    rw [ih (max m (r * d))]
    have hpow : (0 : ℚ) ≤ d ^ (k + 1) := le_of_lt (pow_pos hd0 (k + 1))
    rw [max_mul_of_nonneg _ _ hpow, ← max_assoc,
      max_eq_left (mul_le_of_le_one_right hm (pow_le_one₀ (le_of_lt hd0) hd1))]
    congr 1
    ring

/-- Closed form of the iterated update with a negative floor but a
nonnegative starting rate (the rate then never reaches the floor). -/
theorem decayIter_closed_negfloor (m d : ℚ) (hm : m < 0) (hd0 : 0 < d) :
    ∀ (n : ℕ) (r : ℚ), 0 ≤ r → decayIter m d r n = r * d ^ n := by
  intro n
  induction n with
  | zero =>
    intro r _
    simp [decayIter]
  | succ k ih =>
    intro r hr
    show decayIter m d (max m (r * d)) k = _
    rw [max_eq_right (le_trans (le_of_lt hm) (mul_nonneg hr (le_of_lt hd0))),
      ih (r * d) (mul_nonneg hr hd0.le)]
    ring

/-- C4 as amended: with decay in (0,1] and a nonnegative floor (or a
nonnegative starting rate — both negative is required to break the
formula), the exploration rate after N ≥ 1 successful training episodes
is exactly `max(minExploration, initial * decay^N)`. -/
theorem C4_exploration_decay (a : RL.Agent) (eps : List RL.EpisodeInput)
    (hsign : 0 ≤ a.config.minExploration ∨ 0 ≤ a.config.explorationRate)
    (hd0 : 0 < a.config.explorationDecay) (hd1 : a.config.explorationDecay ≤ 1)
    (hlen : ∀ e ∈ eps, 50 ≤ e.1.length) (hne : eps ≠ []) :
    (RL.trainMany a eps).config.explorationRate =
      max a.config.minExploration
        (a.config.explorationRate * a.config.explorationDecay ^ eps.length) := by
  rw [RL.trainMany_config eps a hlen]
  show decayIter a.config.minExploration a.config.explorationDecay a.config.explorationRate eps.length = _
  obtain ⟨e, rest, rfl⟩ : ∃ e rest, eps = e :: rest := by
    cases eps with
    | nil => exact absurd rfl hne
    | cons e r => exact ⟨e, r, rfl⟩
  rcases hsign with hm | hr
  · rw [List.length_cons, decayIter_closed_nonneg _ _ hm hd0 hd1]
  · rcases le_or_lt 0 a.config.minExploration with hm | hm
    · rw [List.length_cons, decayIter_closed_nonneg _ _ hm hd0 hd1]
    · rw [decayIter_closed_negfloor _ _ hm hd0 _ _ hr]
      exact (max_eq_right (le_trans hm.le
        (mul_nonneg hr (pow_nonneg hd0.le _)))).symm

/-- C4 witness: one successful episode on the default configuration
takes the rate from 0.1 to max(0.01, 0.1 * 0.995). -/
theorem C4_witness :
    (RL.trainMany (RL.mkAgent RL.defaultConfig []) [(flat50, 10000, rng0)]).config.explorationRate
      = max (1/100) ((1/10) * (199/200) ^ 1) := by
  exact C4_exploration_decay (RL.mkAgent RL.defaultConfig []) [(flat50, 10000, rng0)]
    (Or.inl (by norm_num [RL.mkAgent, RL.defaultConfig]))
    (by norm_num [RL.mkAgent, RL.defaultConfig])
    (by norm_num [RL.mkAgent, RL.defaultConfig])
    (by
      intro e he
      rw [List.mem_singleton] at he
      subst he
      decide)
    (by simp)

/-- An agent whose floor and starting rate are both negative (the
degenerate corner where the claimed closed form fails). -/
def aNeg : RL.Agent :=
  RL.mkAgent { RL.defaultConfig with
    explorationRate := -4, explorationDecay := 1/2, minExploration := -1 } []

/-- One 50-candle training episode input. -/
def epNeg : RL.EpisodeInput := (flat50, 10000, rng0)

/-- C4 counterexample: for the agent with starting rate -4, decay 1/2
(inside (0,1]) and floor -1, two successful episodes leave the rate at
-1/2, while the claimed closed form max(-1, -4 * (1/2)^2) equals -1. -/
theorem C4_counterexample :
    (RL.trainMany aNeg [epNeg, epNeg]).config.explorationRate = -(1/2) ∧
    max aNeg.config.minExploration
      (aNeg.config.explorationRate * aNeg.config.explorationDecay ^ 2) = -1 ∧
    (-(1/2) : ℚ) ≠ -1 := by
  have hlen : ¬ flat50.length < 50 := by decide
  have h1 := RL.train_config aNeg flat50 10000 rng0 hlen
  have h2 := RL.train_config ((RL.train aNeg flat50 10000 rng0).2) flat50 10000 rng0 hlen
  refine ⟨?_, ?_, by norm_num⟩
  · show ((RL.train ((RL.train aNeg flat50 10000 rng0).2) flat50 10000 rng0).2).config.explorationRate = _
    rw [h1] at h2
    rw [h2]
    norm_num [aNeg, RL.mkAgent, RL.defaultConfig]
  · norm_num [aNeg, RL.mkAgent, RL.defaultConfig]


/-! ## Claims about the backtester's SMC strategy (C8) -/

/-- 19 flat candles followed by a sweep bar (low 90 under every prior
low, close 101 above the prior close, high 101.5). -/
def flat20 : List Candle := List.replicate 19 flatC ++ [⟨19, 100, 203/2, 90, 101, 1⟩]

set_option maxRecDepth 1000000 in
/-- C8 counterexample: on `flat20` (at UTC hour 0) the backtest engine's
"smc" strategy says buy, while the Market-Structure Analyzer pipeline
(`generateSMCSignal` over `analyzeSMC` of the same 20 candles, which
sees no artifacts and a neutral bias) says hold — so the backtester does
not delegate to, nor agree with, the analyzer's signal generator. -/
theorem C8_counterexample :
    BT.getSMCSignal flat20 = Action.buy ∧
    (SMC.generateSMCSignal (SMC.analyzeSMC 0 flat20)).action = Action.hold ∧
    Action.buy ≠ Action.hold := by
  refine ⟨?_, ?_, by decide⟩
  · with_unfolding_all decide
  · with_unfolding_all decide

/-- Modelled from the amended claim: the backtest engine's "smc"
strategy is its own trailing-20-bar sweep rule — buy when the latest
low undercuts every one of the previous 19 lows while the close rose
over the previous close, sell when the latest high exceeds every one of
the previous 19 highs while the close fell, hold otherwise (and on
fewer than 20 candles). -/
def smcSweepRule (candles : List Candle) : Action :=
  if candles.length < 20 then .hold
  else
    let w := candles.drop (candles.length - 20)
    let prior := w.take 19
    let lastC := w.getLastD cd0
    let prevC := w.getD 18 cd0
    if (prior.all fun c => decide (lastC.low < c.low)) ∧ prevC.close < lastC.close then .buy
    else if (prior.all fun c => decide (c.high < lastC.high)) ∧ lastC.close < prevC.close then .sell
    else .hold

/-- Strict lower bounds distribute over a `foldl min`. -/
theorem lt_foldl_min (a : ℚ) :
    ∀ (xs : List ℚ) (x : ℚ), a < xs.foldl min x ↔ a < x ∧ ∀ y ∈ xs, a < y := by
  intro xs
  induction xs with
  | nil => intro x; simp
  | cons z zs ih =>
    intro x
    rw [List.foldl_cons, ih (min x z)]
    constructor
    · rintro ⟨h1, h2⟩
      rcases lt_min_iff.mp h1 with ⟨hx, hz⟩
      refine ⟨hx, fun y hy => ?_⟩
      rcases List.mem_cons.mp hy with rfl | hm
      · exact hz
      · exact h2 y hm
    · rintro ⟨hx, hy⟩
      exact ⟨lt_min_iff.mpr ⟨hx, hy z (List.mem_cons_self z zs)⟩,
        fun y hm => hy y (List.mem_cons_of_mem z hm)⟩

/-- Strict upper bounds distribute over a `foldl max`. -/
theorem foldl_max_lt (a : ℚ) :
    ∀ (xs : List ℚ) (x : ℚ), xs.foldl max x < a ↔ x < a ∧ ∀ y ∈ xs, y < a := by
  intro xs
  induction xs with
  | nil => intro x; simp
  | cons z zs ih =>
    intro x
    rw [List.foldl_cons, ih (max x z)]
    constructor
    · rintro ⟨h1, h2⟩
      rcases max_lt_iff.mp h1 with ⟨hx, hz⟩
      refine ⟨hx, fun y hy => ?_⟩
      rcases List.mem_cons.mp hy with rfl | hm
      · exact hz
      · exact h2 y hm
    · rintro ⟨hx, hy⟩
      exact ⟨max_lt_iff.mpr ⟨hx, hy z (List.mem_cons_self z zs)⟩,
        fun y hm => hy y (List.mem_cons_of_mem z hm)⟩

/-- C8 as amended: the backtest engine's "smc" strategy coincides, on
every candle series, with the trailing-20-bar sweep rule above (an
independent heuristic, not the analyzer pipeline). -/
theorem C8_strategy_rule (candles : List Candle) :
    BT.getSMCSignal candles = smcSweepRule candles := by
  rw [BT.getSMCSignal, smcSweepRule]
  by_cases h : candles.length < 20
  · rw [if_pos h, if_pos h]
  · rw [if_neg h, if_neg h]
    have h20 : 20 ≤ candles.length := not_lt.mp h
    have hwdef : SMC.takeLast 20 candles = candles.drop (candles.length - 20) := rfl
    set w := candles.drop (candles.length - 20) with hw
    have hwlen : w.length = 20 := by
      rw [hw, List.length_drop]
      omega
    have hwne : w ≠ [] := by
      intro hnil
      rw [hnil] at hwlen
      exact absurd hwlen (by decide)
    have hlastlow : (w.map Candle.low).getLastD 0 = (w.getLastD cd0).low := by
      rw [List.getLastD_eq_getLast?, List.getLastD_eq_getLast?, List.getLast?_map,
        List.getLast?_eq_getLast w hwne]
      rfl
    have hlasthigh : (w.map Candle.high).getLastD 0 = (w.getLastD cd0).high := by
      rw [List.getLastD_eq_getLast?, List.getLastD_eq_getLast?, List.getLast?_map,
        List.getLast?_eq_getLast w hwne]
      rfl
    have hdropLow : (w.map Candle.low).dropLast = (w.take 19).map Candle.low := by
      rw [← List.map_dropLast, List.dropLast_eq_take, hwlen]
    have hdropHigh : (w.map Candle.high).dropLast = (w.take 19).map Candle.high := by
      rw [← List.map_dropLast, List.dropLast_eq_take, hwlen]
    have htakelen : (w.take 19).length = 19 := by
      rw [List.length_take, hwlen]
      omega
    rw [hwdef]
    cases hconsL : (w.take 19).map Candle.low with
    | nil =>
      have : ((w.take 19).map Candle.low).length = 19 := by rw [List.length_map, htakelen]
      rw [hconsL] at this
      exact absurd this (by decide)
    | cons x xs =>
      cases hconsH : (w.take 19).map Candle.high with
      | nil =>
        have : ((w.take 19).map Candle.high).length = 19 := by rw [List.length_map, htakelen]
        rw [hconsH] at this
        exact absurd this (by decide)
      | cons u us =>
        simp only [hlastlow, hlasthigh, hdropLow, hdropHigh, hconsL, hconsH, hwlen]
        have hiffL : (∀ y ∈ x :: xs, (w.getLastD cd0).low < y) ↔
            (∀ c ∈ w.take 19, (w.getLastD cd0).low < c.low) := by
          rw [← hconsL]
          constructor
          · intro ha c hc
            exact ha (Candle.low c) (List.mem_map_of_mem Candle.low hc)
          · intro ha y hy
            rcases List.mem_map.mp hy with ⟨c, hc, rfl⟩
            exact ha c hc
        have hiffH : (∀ y ∈ u :: us, y < (w.getLastD cd0).high) ↔
            (∀ c ∈ w.take 19, c.high < (w.getLastD cd0).high) := by
          rw [← hconsH]
          constructor
          · intro ha c hc
            exact ha (Candle.high c) (List.mem_map_of_mem Candle.high hc)
          · intro ha y hy
            rcases List.mem_map.mp hy with ⟨c, hc, rfl⟩
            exact ha c hc
        have hbuy : (w.getLastD cd0).low < xs.foldl min x ↔
            ((w.take 19).all fun c => decide ((w.getLastD cd0).low < c.low)) = true := by
          rw [lt_foldl_min, List.all_eq_true]
          constructor
          · rintro ⟨h1, h2⟩
            intro c hc
            refine decide_eq_true (hiffL.mp ?_ c hc)
            intro y hy
            rcases List.mem_cons.mp hy with rfl | hm
            · exact h1
            · exact h2 y hm
          · intro ha
            have hall := hiffL.mpr (fun c hc => of_decide_eq_true (ha c hc))
            exact ⟨hall x (List.mem_cons_self x xs),
              fun y hy => hall y (List.mem_cons_of_mem x hy)⟩
        have hsell : us.foldl max u < (w.getLastD cd0).high ↔
            ((w.take 19).all fun c => decide (c.high < (w.getLastD cd0).high)) = true := by
          rw [foldl_max_lt, List.all_eq_true]
          constructor
          · rintro ⟨h1, h2⟩
            intro c hc
            refine decide_eq_true (hiffH.mp ?_ c hc)
            intro y hy
            rcases List.mem_cons.mp hy with rfl | hm
            · exact h1
            · exact h2 y hm
          · intro ha
            have hall := hiffH.mpr (fun c hc => of_decide_eq_true (ha c hc))
            exact ⟨hall u (List.mem_cons_self u us),
              fun y hy => hall y (List.mem_cons_of_mem u hy)⟩
        exact if_congr (and_congr_left' hbuy) rfl (if_congr (and_congr_left' hsell) rfl rfl)


/-! ## Claims about the cash/position exclusion invariant (C10) -/

/-- The simulators' solvency invariant: cash is nonnegative, the held
position is nonnegative, and an open position implies all cash is
deployed. -/
def CashPositionInv (capital position : ℚ) : Prop :=
  0 ≤ capital ∧ 0 ≤ position ∧ (0 < position → capital = 0)

/-- One backtest bar preserves the invariant when the bar's close is
positive. -/
theorem BT.btStep_inv (cfg : BT.BacktestConfig) (candles : List Candle)
    (prices : List ℚ) (st : BT.BtState) (i : ℕ)
    (hprice : 0 < (candles.getD i cd0).close)
    (hinv : CashPositionInv st.capital st.position) :
    CashPositionInv (BT.btStep cfg candles prices st i).capital
      (BT.btStep cfg candles prices st i).position := by
  obtain ⟨hc, hp, hcp⟩ := hinv
  unfold BT.btStep
  dsimp only
  split_ifs with h1 h2 h3 h4 h5
  · exact ⟨mul_nonneg hp hprice.le, le_refl 0, fun h => absurd h (by norm_num)⟩
  · exact ⟨mul_nonneg hp hprice.le, le_refl 0, fun h => absurd h (by norm_num)⟩
  · exact ⟨mul_nonneg hp hprice.le, le_refl 0, fun h => absurd h (by norm_num)⟩
  · exact ⟨hc, hp, hcp⟩
  · exact ⟨le_refl 0, div_nonneg hc hprice.le, fun _ => rfl⟩
  · exact ⟨hc, hp, hcp⟩

/-- A prefix of backtest bars preserves the invariant when every visited
bar's close is positive. -/
theorem BT.btFold_inv (cfg : BT.BacktestConfig) (candles : List Candle) (prices : List ℚ) :
    ∀ (l : List ℕ) (st : BT.BtState),
      (∀ i ∈ l, 0 < (candles.getD i cd0).close) →
      CashPositionInv st.capital st.position →
      CashPositionInv ((l.foldl (BT.btStep cfg candles prices) st).capital)
        ((l.foldl (BT.btStep cfg candles prices) st).position) := by
  intro l
  induction l with
  | nil => intro st _ h; exact h
  | cons i tl ih =>
    intro st h hinv
    rw [List.foldl_cons]
    exact ih _ (fun j hj => h j (List.mem_cons_of_mem i hj))
      (BT.btStep_inv cfg candles prices st i (h i (List.mem_cons_self i tl)) hinv)

/-- One RL training bar preserves the invariant when the bar's close is
positive (whatever action the random draw selects). -/
theorem RL.trainStep_inv (cfg : RL.AgentConfig) (candles : List Candle)
    (rng : ℕ → RL.RngStep) (st : RL.TrainLoopState) (i : ℕ)
    (hprice : 0 < (candles.getD i cd0).close)
    (hinv : CashPositionInv st.capital st.position) :
    CashPositionInv (RL.trainStep cfg candles rng st i).capital
      (RL.trainStep cfg candles rng st i).position := by
  obtain ⟨hc, hp, hcp⟩ := hinv
  unfold RL.trainStep
  dsimp only
  cases (RL.selectAction cfg st.qt (RL.extractState ((candles.drop (i - 30)).take 31)) true
      (rng i).1 (rng i).2.1).1 with
  | buy =>
    by_cases h0 : st.position = 0
    · simp only [h0, if_pos]
      exact ⟨le_refl 0, div_nonneg hc hprice.le, fun _ => rfl⟩
    · simp only [h0, if_neg, ite_false]
      exact ⟨hc, hp, hcp⟩
  | sell =>
    by_cases h1 : 0 < st.position
    · simp only [h1, if_pos, ite_true]
      exact ⟨mul_nonneg hp hprice.le, le_refl 0, fun h => absurd h (by norm_num)⟩
    · simp only [h1, if_neg, ite_false]
      exact ⟨hc, hp, hcp⟩
  | hold =>
    exact ⟨hc, hp, hcp⟩

/-- A prefix of training bars preserves the invariant when every visited
bar's close is positive. -/
theorem RL.trainFold_inv (cfg : RL.AgentConfig) (candles : List Candle) (rng : ℕ → RL.RngStep) :
    ∀ (l : List ℕ) (st : RL.TrainLoopState),
      (∀ i ∈ l, 0 < (candles.getD i cd0).close) →
      CashPositionInv st.capital st.position →
      CashPositionInv ((l.foldl (RL.trainStep cfg candles rng) st).capital)
        ((l.foldl (RL.trainStep cfg candles rng) st).position) := by
  intro l
  induction l with
  | nil => intro st _ h; exact h
  | cons i tl ih =>
    intro st h hinv
    rw [List.foldl_cons]
    exact ih _ (fun j hj => h j (List.mem_cons_of_mem i hj))
      (RL.trainStep_inv cfg candles rng st i (h i (List.mem_cons_self i tl)) hinv)

/-- In-range default reads of a candle list are members of the list. -/
theorem getD_mem_of_lt (candles : List Candle) (i : ℕ) (h : i < candles.length) :
    candles.getD i cd0 ∈ candles := by
  rw [List.getD_eq_getElem candles cd0 h]
  exact List.getElem_mem h

/-- C10 as amended: with a nonnegative initial capital and positive
closes (hypotheses the claim leaves implicit; with negative prices the
code buys a negative position), at every step of both simulation loops
the position is nonnegative and an open position implies zero cash —
for the backtest loop on any accepted (≥ 50 candle) series with any
strategy configuration, and for the RL training loop on any accepted
series, agent state and sequence of random draws. -/
theorem C10_cash_position (cfg : BT.BacktestConfig) (acfg : RL.AgentConfig)
    (qt : RL.QTable) (mem : List RL.Experience) (candles : List Candle)
    (cap : ℚ) (rng : ℕ → RL.RngStep) (k : ℕ)
    (h50 : 50 ≤ candles.length) (hbc : 0 ≤ cfg.initialCapital) (hcap : 0 ≤ cap)
    (hpos : ∀ c ∈ candles, 0 < c.close) :
    (0 ≤ (BT.btStateAfter cfg candles k).position ∧
      (0 < (BT.btStateAfter cfg candles k).position →
        (BT.btStateAfter cfg candles k).capital = 0)) ∧
    (0 ≤ (RL.trainStateAfter acfg candles rng qt mem cap k).position ∧
      (0 < (RL.trainStateAfter acfg candles rng qt mem cap k).position →
        (RL.trainStateAfter acfg candles rng qt mem cap k).capital = 0)) := by
  have hrange : ∀ (n m : ℕ), ∀ i ∈ (List.range' 30 n).take m, i < 30 + n := by
    intro n m i hi
    have := List.mem_range'_1.mp (List.mem_of_mem_take hi)
    omega
  constructor
  · have h := BT.btFold_inv cfg candles (candles.map Candle.close)
      ((List.range' 30 (candles.length - 30)).take k) (BT.btInit cfg)
      (fun i hi => hpos _ (getD_mem_of_lt candles i (by
        have := hrange (candles.length - 30) k i hi
        omega)))
      ⟨hbc, le_refl 0, fun hlt => absurd hlt (lt_irrefl 0)⟩
    exact ⟨h.2.1, h.2.2⟩
  · have h := RL.trainFold_inv acfg candles rng
      ((List.range' 30 (candles.length - 31)).take k)
      { qt := qt, mem := mem, capital := cap, position := 0, entryPrice := 0
        totalReward := 0, maxCapital := cap, maxDrawdown := 0
        buyActions := 0, sellActions := 0, holdActions := 0, wins := 0, trades := 0
        actionsList := [] }
      (fun i hi => hpos _ (getD_mem_of_lt candles i (by
        have := hrange (candles.length - 31) k i hi
        omega)))
      ⟨hcap, le_refl 0, fun hlt => absurd hlt (lt_irrefl 0)⟩
    exact ⟨h.2.1, h.2.2⟩

/-- C10 witness: both loops on 50 flat candles after 2 steps. -/
theorem C10_witness :
    0 ≤ (BT.btStateAfter (BT.defaultBtConfig .rsi "TEST" 10000) flat50 2).position ∧
    0 ≤ (RL.trainStateAfter RL.defaultConfig flat50 rng0 [] [] 10000 2).position := by
  have hpos : ∀ c ∈ flat50, 0 < c.close := by
    intro c hc
    simp only [flat50, List.mem_map] at hc
    obtain ⟨i, _, rfl⟩ := hc
    norm_num
  have h := C10_cash_position (BT.defaultBtConfig .rsi "TEST" 10000) RL.defaultConfig
    [] [] flat50 10000 rng0 2 (by decide) (by norm_num [BT.defaultBtConfig])
    (by norm_num) hpos
  exact ⟨h.1.1, h.2.1⟩

/-- The default RSI backtest configuration over a falling series of
negative closes. -/
def negCfg : BT.BacktestConfig := BT.defaultBtConfig .rsi "NEG" 10000

/-- 50 candles with strictly falling negative closes (-1, -2, …, -50). -/
def negCandles : List Candle :=
  (List.range 50).map (fun i => ⟨(i : ℤ), -(i + 1 : ℚ), -(i + 1 : ℚ), -(i + 1 : ℚ), -(i + 1 : ℚ), 1⟩)

set_option maxRecDepth 1000000 in
/-- C10 counterexample: the claim as stated (for every series accepted
by `run`, i.e. any 50 candles) is false — on the falling negative-price
series the RSI strategy fires a buy at the first bar and the engine
holds a negative position (10000 / -31). -/
theorem C10_counterexample :
    negCandles.length = 50 ∧ (BT.btStateAfter negCfg negCandles 1).position < 0 := by
  constructor
  · decide
  · with_unfolding_all decide

end Trading
